/-
  Verification of the media-sense-extract repository against its
  natural-language specification.

  The development shallowly embeds the TypeScript/Deno sources:
  - a JSON value type with a pretty renderer mirroring
    JSON.stringify(value, null, 2) and a whitespace-tolerant parser
    (for the export round-trip of ResultsDisplay.tsx);
  - the generate-video-from-slides edge handler (index.ts) as a pure
    function over an environment describing how each upstream fetch
    settles, emitting an event trace for ordering properties;
  - the ProcessingStatus overall-progress fold, the timer-driven
    simulateProgress drivers, the FileUpload validator, and the
    per-slide fan-out handler of the alternate implementation.

  Strings are modelled as sequences of unicode scalar values, numbers
  in JSON data as exact scaled decimals (mantissa and decimal scale),
  and fallible upstream calls as Except values.
-/
import Mathlib

namespace MediaSense

/-! ## JSON values

A JSON value as produced by the app: numbers are exact scaled decimals
(`num m e` denotes `m / 10^e`), matching the finite decimal literals
JSON.stringify emits. -/

inductive Json where
  | null
  | bool (b : Bool)
  | num (mant : Int) (scale : Nat)
  | str (s : String)
  | arr (items : List Json)
  | obj (fields : List (String × Json))

/-- Field lookup in a JSON object; none on non-objects or missing keys. -/
def jGet (j : Json) (k : String) : Option Json :=
  match j with
  | Json.obj fs => fs.lookup k
  | _ => none

/-! ### Decimal digits -/

/-- The character for a decimal digit value below ten. -/
def decChar (d : Nat) : Char := Char.ofNat (48 + d)

/-- Decimal digit characters of a natural number, most significant first. -/
def natChars (n : Nat) : List Char :=
  if n < 10 then [decChar n]
  else natChars (n / 10) ++ [decChar (n % 10)]
termination_by n
decreasing_by simp_wf; omega

/-- Is this character a decimal digit? -/
def isDig (c : Char) : Bool := 48 ≤ c.toNat && c.toNat ≤ 57

/-- Numeric value of a run of digit characters (most significant first). -/
def valOfDigits (ds : List Char) : Nat :=
  ds.foldl (fun a c => 10 * a + (c.toNat - 48)) 0

/-- Exactly `e` digit characters for a value `r < 10^e` (zero padded). -/
def padDigits (e : Nat) (r : Nat) : List Char :=
  List.replicate (e - (natChars r).length) '0' ++ natChars r

/-- Character list of a scaled decimal `m / 10^e`, as JSON.stringify prints
    the corresponding number: optional minus sign, integer part, and for
    nonzero scale a point followed by exactly `e` fraction digits. -/
def numChars (m : Int) (e : Nat) : List Char :=
  (if m < 0 then ['-'] else []) ++
    (if e = 0 then natChars m.natAbs
     else natChars (m.natAbs / 10 ^ e) ++ '.' :: padDigits e (m.natAbs % 10 ^ e))

/-! ### String escaping -/

/-- Lowercase hex digit character for a value below sixteen. -/
def hexChar (d : Nat) : Char :=
  if d < 10 then Char.ofNat (48 + d) else Char.ofNat (87 + d)

/-- JSON escape of one character, per QuoteJSONString: named escapes for
    the quote, backslash and common control characters, a unicode escape
    for the remaining control characters, the character itself otherwise. -/
def escChar (c : Char) : List Char :=
  if c = '"' then ['\\', '"']
  else if c = '\\' then ['\\', '\\']
  else if c = '\n' then ['\\', 'n']
  else if c = '\r' then ['\\', 'r']
  else if c = '\t' then ['\\', 't']
  else if c.toNat = 8 then ['\\', 'b']
  else if c.toNat = 12 then ['\\', 'f']
  else if c.toNat < 32 then
    ['\\', 'u', '0', '0', hexChar (c.toNat / 16), hexChar (c.toNat % 16)]
  else [c]

/-- Escape every character of a list in order. -/
def escList : List Char → List Char
  | [] => []
  | c :: cs => escChar c ++ escList cs

/-- A rendered JSON string: quote, escaped body, quote. -/
def strChars (s : String) : List Char :=
  '"' :: (escList s.toList ++ ['"'])

/-! ### The pretty renderer, mirroring JSON.stringify(v, null, 2) -/

/-- Newline followed by `n` spaces of indentation. -/
def nlIndent (n : Nat) : List Char := '\n' :: List.replicate n ' '

mutual

/-- Render a value at indentation `ind`, exactly as JSON.stringify with a
    two-space gap lays it out. -/
def jRender (ind : Nat) : Json → List Char
  | Json.null => ['n', 'u', 'l', 'l']
  | Json.bool true => ['t', 'r', 'u', 'e']
  | Json.bool false => ['f', 'a', 'l', 's', 'e']
  | Json.num m e => numChars m e
  | Json.str s => strChars s
  | Json.arr [] => ['[', ']']
  | Json.arr (x :: xs) =>
      '[' :: (nlIndent (ind + 2) ++ jRender (ind + 2) x ++
        jArrTail (ind + 2) xs ++ nlIndent ind ++ [']'])
  | Json.obj [] => ['{', '}']
  | Json.obj (f :: fs) =>
      '{' :: (nlIndent (ind + 2) ++ strChars f.1 ++ ':' :: ' ' ::
        (jRender (ind + 2) f.2 ++ jObjTail (ind + 2) fs ++ nlIndent ind ++ ['}']))

/-- Second and later array items, each preceded by a comma and a fresh
    indented line. -/
def jArrTail (ind : Nat) : List Json → List Char
  | [] => []
  | x :: xs => ',' :: (nlIndent ind ++ jRender ind x ++ jArrTail ind xs)

/-- Second and later object members. -/
def jObjTail (ind : Nat) : List (String × Json) → List Char
  | [] => []
  | f :: fs => ',' :: (nlIndent ind ++ strChars f.1 ++ ':' :: ' ' ::
      (jRender ind f.2 ++ jObjTail ind fs))

end

/-! ### The parser -/

/-- JSON insignificant whitespace. -/
def jWs (c : Char) : Bool := c = ' ' || c = '\n' || c = '\t' || c = '\r'

/-- Drop leading insignificant whitespace. -/
def dropWs : List Char → List Char
  | [] => []
  | c :: cs => if jWs c then dropWs cs else c :: cs

/-- Take the longest leading run of digit characters. -/
def grabDigits : List Char → List Char × List Char
  | [] => ([], [])
  | c :: cs =>
      if isDig c then ((grabDigits cs).1.cons c, (grabDigits cs).2)
      else ([], c :: cs)

/-- Value of a lowercase-or-uppercase hex digit character. -/
def hexVal (c : Char) : Option Nat :=
  if 48 ≤ c.toNat && c.toNat ≤ 57 then some (c.toNat - 48)
  else if 97 ≤ c.toNat && c.toNat ≤ 102 then some (c.toNat - 87)
  else if 65 ≤ c.toNat && c.toNat ≤ 70 then some (c.toNat - 55)
  else none

/-- The character a two-character escape stands for. -/
def unescChar (c : Char) : Option Char :=
  if c = '"' then some '"'
  else if c = '\\' then some '\\'
  else if c = '/' then some '/'
  else if c = 'n' then some '\n'
  else if c = 'r' then some '\r'
  else if c = 't' then some '\t'
  else if c = 'b' then some (Char.ofNat 8)
  else if c = 'f' then some (Char.ofNat 12)
  else none

/-- Parse a string body after the opening quote, accumulating characters in
    reverse; structural on the input. -/
def pText (acc : List Char) : List Char → Option (String × List Char)
  | '"' :: rest => some (String.mk acc.reverse, rest)
  | '\\' :: 'u' :: h1 :: h2 :: h3 :: h4 :: rest =>
      match hexVal h1, hexVal h2, hexVal h3, hexVal h4 with
      | some a, some b, some c, some d =>
          pText (Char.ofNat (((a * 16 + b) * 16 + c) * 16 + d) :: acc) rest
      | _, _, _, _ => none
  | '\\' :: c :: rest =>
      match unescChar c with
      | some ch => pText (ch :: acc) rest
      | none => none
  | c :: rest => pText (c :: acc) rest
  | [] => none

/-- Parse an unsigned decimal, integer part and optional fraction, into a
    mantissa and decimal scale. -/
def pNumAbs (cs : List Char) : Option ((Nat × Nat) × List Char) :=
  let g := grabDigits cs
  if g.1 = [] then none
  else if g.2.head? = some '.' then
    let g2 := grabDigits g.2.tail
    if g2.1 = [] then none
    else some ((valOfDigits g.1 * 10 ^ g2.1.length + valOfDigits g2.1,
                g2.1.length), g2.2)
  else some ((valOfDigits g.1, 0), g.2)

/-- Parse a possibly signed decimal number. -/
def pNumber (cs : List Char) : Option ((Int × Nat) × List Char) :=
  if cs.head? = some '-' then
    match pNumAbs cs.tail with
    | some (p, r) => some ((-(p.1 : Int), p.2), r)
    | none => none
  else
    match pNumAbs cs with
    | some (p, r) => some (((p.1 : Int), p.2), r)
    | none => none

mutual

/-- Parse one JSON value; `fuel` bounds the recursion depth. -/
def pVal : Nat → List Char → Option (Json × List Char)
  | 0, _ => none
  | fuel + 1, cs =>
      match dropWs cs with
      | 'n' :: 'u' :: 'l' :: 'l' :: r => some (Json.null, r)
      | 't' :: 'r' :: 'u' :: 'e' :: r => some (Json.bool true, r)
      | 'f' :: 'a' :: 'l' :: 's' :: 'e' :: r => some (Json.bool false, r)
      | '"' :: r =>
          match pText [] r with
          | some (s, r1) => some (Json.str s, r1)
          | none => none
      | '[' :: r =>
          if (dropWs r).head? = some ']' then some (Json.arr [], (dropWs r).tail)
          else
            (match pItems fuel (dropWs r) with
             | some (xs, r1) => some (Json.arr xs, r1)
             | none => none)
      | '{' :: r =>
          if (dropWs r).head? = some '}' then some (Json.obj [], (dropWs r).tail)
          else
            (match pFields fuel (dropWs r) with
             | some (fs, r1) => some (Json.obj fs, r1)
             | none => none)
      | cs1 =>
          match pNumber cs1 with
          | some (p, r1) => some (Json.num p.1 p.2, r1)
          | none => none

/-- Parse one-or-more comma separated array items up to the closing bracket. -/
def pItems : Nat → List Char → Option (List Json × List Char)
  | 0, _ => none
  | fuel + 1, cs =>
      match pVal fuel cs with
      | none => none
      | some (v, r) =>
          match dropWs r with
          | ',' :: r1 =>
              (match pItems fuel r1 with
               | some (vs, r2) => some (v :: vs, r2)
               | none => none)
          | ']' :: r1 => some ([v], r1)
          | _ => none

/-- Parse one-or-more comma separated object members up to the closing brace. -/
def pFields : Nat → List Char → Option (List (String × Json) × List Char)
  | 0, _ => none
  | fuel + 1, cs =>
      match dropWs cs with
      | '"' :: r =>
          (match pText [] r with
           | none => none
           | some (k, r1) =>
               match dropWs r1 with
               | ':' :: r2 =>
                   (match pVal fuel r2 with
                    | none => none
                    | some (v, r3) =>
                        match dropWs r3 with
                        | ',' :: r4 =>
                            (match pFields fuel r4 with
                             | some (fs, r5) => some ((k, v) :: fs, r5)
                             | none => none)
                        | '}' :: r4 => some ([(k, v)], r4)
                        | _ => none)
               | _ => none)
      | _ => none

end

/-- Parse a complete JSON document: one value followed only by whitespace. -/
def parseJson (s : String) : Option Json :=
  match pVal (s.toList.length + 1) s.toList with
  | some (v, rest) => if dropWs rest = [] then some v else none
  | none => none

/-- Input that cannot extend a just-parsed number: empty, or headed by a
    character that is neither a digit nor a decimal point. -/
def numStop (cs : List Char) : Bool :=
  match cs with
  | [] => true
  | c :: _ => !(isDig c || c = '.')

/-- Input that does not start with a digit. -/
def headNotDig (cs : List Char) : Bool :=
  match cs with
  | [] => true
  | c :: _ => !isDig c

/-- A run of insignificant whitespace. -/
def wsOnly (cs : List Char) : Bool := cs.all jWs

/-! ## The generate-video-from-slides edge handler

Embedding of supabase/functions/generate-video-from-slides/index.ts,
request path (the OPTIONS preflight branch returns early and is not
modelled). Each raced upstream call is described by when the fetch
settles and how: an `Except.error` folds in a rejected fetch or a
failure of response.json() / choices[0].message.content extraction,
both of which land in the same top-level catch; an `Except.ok` carries
the response with the extracted text (script call) or the base64 of the
audio buffer (speech call) as its payload. -/

/-- An upstream HTTP response as the handler observes it. -/
structure UpstreamResponse where
  ok : Bool
  status : Nat
  statusText : String
  payload : String
deriving DecidableEq

/-- The request init records built for fetch: the source passes method,
    headers and body only, so no abort signal is attached. -/
structure FetchInit where
  url : String
  method : String
  signal : Option Unit
deriving DecidableEq

/-- Fetch init of the chat-completion call (index.ts lines 44-73). -/
def scriptFetchInit : FetchInit :=
  { url := "https://api.openai.com/v1/chat/completions"
    method := "POST"
    signal := none }

/-- Fetch init of the speech-synthesis call (index.ts lines 86-98). -/
def audioFetchInit : FetchInit :=
  { url := "https://api.openai.com/v1/audio/speech"
    method := "POST"
    signal := none }

/-- Timeout of the Promise.race around script generation, ms. -/
def scriptTimeoutMs : Nat := 30000

/-- Timeout of the Promise.race around audio generation, ms. -/
def audioTimeoutMs : Nat := 45000

/-- The rejection message of the script generation timeout promise. -/
def scriptTimeoutMsg : String := "Script generation timeout"

/-- The rejection message of the audio generation timeout promise. -/
def audioTimeoutMsg : String := "Audio generation timeout"

/-- Outcome of Promise.race between a fetch and a rejecting timeout: the
    fetch result when it settles strictly before the timeout fires, the
    timeout rejection otherwise (also when the fetch never settles). -/
def raceFetch (timeoutMs : Nat) (timeoutMsg : String) (settleMs : Option Nat)
    (settled : Except String UpstreamResponse) : Except String UpstreamResponse :=
  match settleMs with
  | none => Except.error timeoutMsg
  | some t => if t < timeoutMs then settled else Except.error timeoutMsg

/-- Settings destructured from the request body by the handler. -/
structure GenSettings where
  intelligenceLevel : Nat
  minLength : Nat
  maxLength : Nat
  voice : String
  tone : String
  customInstructions : String

/-- The environment a single request runs in: the parsed request body
    fields, the configured API key, and how each upstream fetch settles
    (elapsed milliseconds, none when it hangs forever, and its result). -/
structure HandlerEnv where
  slideData : Option String
  fileName : String
  settings : GenSettings
  apiKey : Option String
  scriptFetchMs : Option Nat
  scriptFetch : Except String UpstreamResponse
  audioFetchMs : Option Nat
  audioFetch : String → Except String UpstreamResponse
  now : Nat

/-- The raced script generation call. -/
def scriptOutcome (env : HandlerEnv) : Except String UpstreamResponse :=
  raceFetch scriptTimeoutMs scriptTimeoutMsg env.scriptFetchMs env.scriptFetch

/-- The raced audio generation call, issued with the given TTS input. -/
def audioOutcome (env : HandlerEnv) (input : String) :
    Except String UpstreamResponse :=
  raceFetch audioTimeoutMs audioTimeoutMsg env.audioFetchMs (env.audioFetch input)

/-- The TTS input: script.substring(0, 4000), the first 4000 characters
    of the script. -/
def ttsInput (script : String) : String := String.mk (script.toList.take 4000)

/-- Observable steps of a request, in order of occurrence. -/
inductive Event where
  | scriptCall (init : FetchInit)
  | scriptExtracted (script : String)
  | audioCall (init : FetchInit) (input : String) (voice : String)
  | audioDone
deriving DecidableEq

/-- An HTTP response: status code and JSON body. -/
structure HttpResponse where
  status : Nat
  body : Json

/-- JSON encoding of the settings record echoed in the success body. -/
def settingsJson (s : GenSettings) : Json :=
  Json.obj
    [("intelligenceLevel", Json.num s.intelligenceLevel 0),
     ("minLength", Json.num s.minLength 0),
     ("maxLength", Json.num s.maxLength 0),
     ("voice", Json.str s.voice),
     ("tone", Json.str s.tone),
     ("customInstructions", Json.str s.customInstructions)]

/-- The success envelope built at index.ts lines 110-117. -/
def successBody (env : HandlerEnv) (script : String) (audioBase64 : String) : Json :=
  Json.obj
    [("success", Json.bool true),
     ("script", Json.str script),
     ("audioUrl", Json.str ("data:audio/mp3;base64," ++ audioBase64)),
     ("videoUrl", Json.str ("mock-video-" ++ toString env.now ++ ".mp4")),
     ("duration", Json.str (toString env.settings.minLength ++ "-" ++
        toString env.settings.maxLength ++ " minutes")),
     ("settings", settingsJson env.settings)]

/-- The error envelope built in the catch block (index.ts lines 128-134). -/
def errorResponse (msg : String) : HttpResponse :=
  { status := 500, body := Json.obj [("error", Json.str msg)] }

/-- The body of the try block: validation, the raced script call, ok-check
    and script extraction, the raced audio call, ok-check, and the success
    response; every failure is a thrown error message. Also returns the
    event trace of upstream activity. -/
def handlerTry (env : HandlerEnv) : List Event × Except String HttpResponse :=
  match env.slideData with
  | none => ([], Except.error "Slide data is required")
  | some _ =>
      match env.apiKey with
      | none => ([], Except.error "OpenAI API key not configured")
      | some _ =>
          match scriptOutcome env with
          | Except.error msg => ([Event.scriptCall scriptFetchInit], Except.error msg)
          | Except.ok sr =>
              if sr.ok then
                let script := sr.payload
                let input := ttsInput script
                match audioOutcome env input with
                | Except.error msg =>
                    ([Event.scriptCall scriptFetchInit, Event.scriptExtracted script,
                      Event.audioCall audioFetchInit input env.settings.voice],
                     Except.error msg)
                | Except.ok ar =>
                    if ar.ok then
                      ([Event.scriptCall scriptFetchInit, Event.scriptExtracted script,
                        Event.audioCall audioFetchInit input env.settings.voice,
                        Event.audioDone],
                       Except.ok { status := 200, body := successBody env script ar.payload })
                    else
                      ([Event.scriptCall scriptFetchInit, Event.scriptExtracted script,
                        Event.audioCall audioFetchInit input env.settings.voice],
                       Except.error ("Audio generation failed: " ++ ar.statusText))
              else
                ([Event.scriptCall scriptFetchInit],
                 Except.error ("Script generation failed: " ++ sr.statusText))

/-- The whole handler: the try body with its catch converting any thrown
    error into a 500 response with an error JSON body. -/
def runHandler (env : HandlerEnv) : List Event × HttpResponse :=
  match handlerTry env with
  | (t, Except.ok resp) => (t, resp)
  | (t, Except.error msg) => (t, errorResponse msg)

/-! ## ProcessingStatus overall progress

Embedding of the overallProgress fold of ProcessingStatus.tsx (lines
45-49) over the seven-stage record declared in pages/Index.tsx. -/

/-- The seven named stages of the processing pipeline. -/
inductive PStage where
  | upload | metadata | frames | visual | audio | final | complete
deriving DecidableEq

/-- Status of one stage. -/
inductive PStatus where
  | pending | processing | complete | error
deriving DecidableEq

/-- Per-stage display data. -/
structure StageData where
  status : PStatus
  progress : ℚ
  message : String

/-- The processing state: one record entry per stage, plus logs. -/
structure ProcessingState where
  stages : PStage → StageData
  logs : List String

/-- Declaration order of the stage record, which Object.values preserves. -/
def stageOrder : List PStage :=
  [PStage.upload, PStage.metadata, PStage.frames, PStage.visual,
   PStage.audio, PStage.final, PStage.complete]

/-- The overall progress fold: complete stages add 100/7, processing
    stages add progress/7, others add nothing. -/
def overallProgress (st : ProcessingState) : ℚ :=
  (stageOrder.map st.stages).foldl
    (fun acc sd =>
      match sd.status with
      | PStatus.complete => acc + 100 / 7
      | PStatus.processing => acc + sd.progress / 7
      | _ => acc) 0

/-- The credit one stage contributes before scaling: 100 when complete,
    its progress while processing, zero otherwise. -/
def stageCredit (sd : StageData) : ℚ :=
  match sd.status with
  | PStatus.complete => 100
  | PStatus.processing => sd.progress
  | _ => 0

/-! ## The timer-driven progress simulation

Embedding of simulateProgress in pages/SlideToVideo.tsx (lines 86-118)
and its video-analysis variant (unnamed part_001 lines 86-118). Both
close over a stage list, an accumulating counter advanced by a fixed
increment on a recurring interval, a per-stage cumulative target
(stageIndex + 1) * (100 / stages.length), and a fixed delay before the
next stage starts. One simTick is one interval callback. -/

/-- A declared simulation stage: display name and nominal duration. -/
structure SimStage where
  name : String
  durationMs : Nat

/-- The constants one simulateProgress instance closes over. -/
structure SimConfig where
  stages : List SimStage
  increment : ℚ
  tickMs : Nat
  nextStageDelayMs : Nat

/-- The simulateProgress instance of SlideToVideo.tsx. -/
def slideToVideoSim : SimConfig :=
  { stages :=
      [{ name := "Uploading file...", durationMs := 1000 },
       { name := "Extracting slide content...", durationMs := 2000 },
       { name := "Generating script...", durationMs := 3000 },
       { name := "Creating voiceover...", durationMs := 4000 },
       { name := "Finalizing video...", durationMs := 2000 }]
    increment := 2
    tickMs := 100
    nextStageDelayMs := 500 }

/-- The simulateProgress instance of the video-analysis page (part_001). -/
def videoAnalysisSim : SimConfig :=
  { stages :=
      [{ name := "Uploading video...", durationMs := 1000 },
       { name := "Extracting frames...", durationMs := 2000 },
       { name := "Analyzing visual content...", durationMs := 3000 },
       { name := "Processing audio...", durationMs := 2500 },
       { name := "Generating insights...", durationMs := 2000 },
       { name := "Finalizing report...", durationMs := 1500 }]
    increment := 3 / 2
    tickMs := 80
    nextStageDelayMs := 300 }

/-- The cumulative completion target of stage `i`:
    (stageIndex + 1) * (100 / stages.length). -/
def stageTarget (cfg : SimConfig) (i : Nat) : ℚ :=
  (i + 1) * (100 / cfg.stages.length)

/-- The mutable state of the simulation: the stage index, the accumulated
    counter (currentProgress) and the value last passed to setProgress. -/
structure SimState where
  stageIndex : Nat
  counter : ℚ
  displayed : ℚ

/-- One interval callback: add the increment to the counter, display
    min(counter, target), and when the counter has reached the target end
    the interval and move to the next stage. After the last stage the
    interval body never runs again, so the state is frozen. -/
def simTick (cfg : SimConfig) (s : SimState) : SimState :=
  if s.stageIndex < cfg.stages.length then
    let c := s.counter + cfg.increment
    let d := min c (stageTarget cfg s.stageIndex)
    if stageTarget cfg s.stageIndex ≤ c then
      { stageIndex := s.stageIndex + 1, counter := c, displayed := d }
    else
      { stageIndex := s.stageIndex, counter := c, displayed := d }
  else s

/-- The state after `n` interval callbacks, starting from zero. -/
def simRun (cfg : SimConfig) : Nat → SimState
  | 0 => { stageIndex := 0, counter := 0, displayed := 0 }
  | n + 1 => simTick cfg (simRun cfg n)

/-! ## The FileUpload validator

Embedding of validateFile and handleFileProcess of FileUpload.tsx. -/

/-- The accepted MIME type allowlist (FileUpload.tsx lines 11-20). -/
def acceptedVideoTypes : List String :=
  ["video/mp4", "video/mov", "video/quicktime", "video/avi",
   "video/x-msvideo", "video/mkv", "video/x-matroska", "video/webm"]

/-- The 500MB size limit. -/
def maxFileSize : Nat := 500 * 1024 * 1024

/-- A selected file as the validator sees it. -/
structure JsFile where
  name : String
  type : String
  size : Nat

/-- A toast notification. -/
structure Toast where
  title : String
  description : String

/-- validateFile: reject unknown MIME types, then oversized files, each
    with its toast; accept otherwise. Returns the boolean result and the
    toast shown, if any. -/
def validateFile (f : JsFile) : Bool × Option Toast :=
  if acceptedVideoTypes.contains f.type = false then
    (false, some { title := "Unsupported file type"
                   description := "Please upload a video file (.mp4, .mov, .avi, .mkv, .webm)" })
  else if maxFileSize < f.size then
    (false, some { title := "File too large"
                   description := "Please upload a video file smaller than 500MB" })
  else
    (true, none)

/-- handleFileProcess: on a failed validation it returns at once, so
    onFileUpload is never called; modelled as the file handed to
    onFileUpload, or none when validation rejected it. -/
def handleFileProcess (f : JsFile) : Option JsFile :=
  if (validateFile f).1 then some f else none

/-! ## The per-slide fan-out handler

Embedding of the alternate generate-video-from-slides implementation
(unnamed part_004): per-slide helpers that swallow their own upstream
failures, and the serve body fanning out over the slides array. Upstream
outcomes are indexed by slide position; an `Except.ok` means the fetch
resolved and the response body was read, whatever the status. -/

/-- A slide of the request body. -/
structure Slide where
  content : String
  duration : Nat
  notes : Option String
deriving DecidableEq

/-- Settings of the alternate request shape. -/
structure FanSettings where
  voiceType : String
  speed : ℚ
  resolution : String
  style : String

/-- generateSlideScript (part_004 lines 91-141): returns the extracted
    script on a 2xx response; a non-ok response throws inside the try and
    the catch returns the slide content, as does any fetch or extraction
    failure. -/
def generateSlideScript (slide : Slide)
    (outcome : Except String UpstreamResponse) : String :=
  match outcome with
  | Except.ok r => if r.ok then r.payload else slide.content
  | Except.error _ => slide.content

/-- generateVoiceNarration (part_004 lines 143-179): returns a data URL
    around the base64 audio on a 2xx response; a non-ok response throws
    inside the try and the catch returns the empty string, as does any
    fetch or buffer failure. The script argument is the request input. -/
def generateVoiceNarration (script : String)
    (outcome : Except String UpstreamResponse) : String :=
  match outcome with
  | Except.ok r => if r.ok then "data:audio/mp3;base64," ++ r.payload else ""
  | Except.error _ => ""

/-- The visual enhancement record (part_004 lines 221-235). -/
structure VisualEnhancements where
  suggestions : String
  animations : List String
  colorScheme : String
  transitions : List String

/-- generateVisualEnhancements: reads the response body without an
    ok-check; any failure falls back to the default record. -/
def generateVisualEnhancements (settings : FanSettings)
    (outcome : Except String UpstreamResponse) : VisualEnhancements :=
  match outcome with
  | Except.ok r =>
      { suggestions := r.payload
        animations := ["fadeIn", "slideUp"]
        colorScheme := if settings.style = "professional" then "blue-gradient"
                       else "warm-gradient"
        transitions := ["smooth-fade"] }
  | Except.error _ =>
      { suggestions := "Standard visual enhancements applied"
        animations := ["fadeIn"]
        colorScheme := "default"
        transitions := ["fade"] }

/-- Environment of one fan-out request: body fields, API key, and how the
    upstream call for each slide index settles in each phase. -/
structure FanoutEnv where
  slides : List Slide
  settings : FanSettings
  apiKey : Option String
  scriptOutcome : Nat → Except String UpstreamResponse
  voiceOutcome : Nat → Except String UpstreamResponse
  visualOutcome : Nat → Except String UpstreamResponse

/-- Result of the fan-out serve body: a 200 with the compiled per-slide
    data, or the catch converting a thrown error into a 500. -/
inductive FanResult where
  | success (status : Nat) (slideScripts : List String)
      (audioTracks : List String) (visuals : List VisualEnhancements)
  | failure (status : Nat) (errMsg : String)

/-- The serve body of part_004: validation, then three Promise.all
    fan-outs (scripts from slides, narration from the scripts, visual
    enhancements), then the 200 response. -/
def runSlidesFanout (env : FanoutEnv) : FanResult :=
  if env.slides.isEmpty then FanResult.failure 500 "Slides data is required"
  else
    match env.apiKey with
    | none => FanResult.failure 500 "OpenAI API key not configured"
    | some _ =>
        let slideScripts := env.slides.mapIdx
          (fun i s => generateSlideScript s (env.scriptOutcome i))
        let audioTracks := slideScripts.mapIdx
          (fun i sc => generateVoiceNarration sc (env.voiceOutcome i))
        let visuals := env.slides.mapIdx
          (fun i _ => generateVisualEnhancements env.settings (env.visualOutcome i))
        FanResult.success 200 slideScripts audioTracks visuals

/-! ## The analysis results envelope and its JSON export

Embedding of the AnalysisResults shape of pages/Index.tsx and the export
of ResultsDisplay.tsx: JSON.stringify(results, null, 2). Numbers are the
scaled decimals of the Json model. -/

/-- One transcript segment. -/
structure TranscriptSegment where
  timestamp : String
  text : String
  confidenceMant : Int
  confidenceScale : Nat

/-- One visual analysis frame; frameUrl is optional and absent keys are
    simply not serialized. -/
structure VisualFrame where
  timestamp : String
  description : String
  frameUrl : Option String

/-- The summary section. -/
structure SummaryData where
  duration : String
  keyInsights : List String
  mainTopics : List String

/-- The transcript section. -/
structure TranscriptData where
  fullText : String
  segments : List TranscriptSegment

/-- The metadata section. -/
structure VideoMetadata where
  resolution : String
  codec : String
  fileSize : String
  duration : String

/-- The full results envelope; rawData is untyped in the source and kept
    as an arbitrary JSON value here. -/
structure AnalysisResults where
  summary : SummaryData
  visualAnalysis : List VisualFrame
  transcript : TranscriptData
  metadata : VideoMetadata
  rawData : Json

/-- The JSON structure of one visual frame. -/
def frameJson (fr : VisualFrame) : Json :=
  Json.obj
    ([("timestamp", Json.str fr.timestamp),
      ("description", Json.str fr.description)] ++
     (match fr.frameUrl with
      | some u => [("frameUrl", Json.str u)]
      | none => []))

/-- The JSON structure of one transcript segment. -/
def segmentJson (sg : TranscriptSegment) : Json :=
  Json.obj
    [("timestamp", Json.str sg.timestamp),
     ("text", Json.str sg.text),
     ("confidence", Json.num sg.confidenceMant sg.confidenceScale)]

/-- The JSON structure of the whole results envelope, as the serializer
    walks it. -/
def encodeResults (r : AnalysisResults) : Json :=
  Json.obj
    [("summary", Json.obj
       [("duration", Json.str r.summary.duration),
        ("keyInsights", Json.arr (r.summary.keyInsights.map Json.str)),
        ("mainTopics", Json.arr (r.summary.mainTopics.map Json.str))]),
     ("visualAnalysis", Json.arr (r.visualAnalysis.map frameJson)),
     ("transcript", Json.obj
       [("fullText", Json.str r.transcript.fullText),
        ("segments", Json.arr (r.transcript.segments.map segmentJson))]),
     ("metadata", Json.obj
       [("resolution", Json.str r.metadata.resolution),
        ("codec", Json.str r.metadata.codec),
        ("fileSize", Json.str r.metadata.fileSize),
        ("duration", Json.str r.metadata.duration)]),
     ("rawData", r.rawData)]

/-- The exported text: JSON.stringify(results, null, 2). -/
def exportJsonText (r : AnalysisResults) : String :=
  String.mk (jRender 0 (encodeResults r))

/-! ## Concrete environments used by witnesses and counterexamples -/

/-- Settings used by the concrete request environments. -/
def sampleSettings : GenSettings :=
  { intelligenceLevel := 3, minLength := 5, maxLength := 15
    voice := "alloy", tone := "professional", customInstructions := "" }

/-- A request whose script call resolves quickly with a 429 response. -/
def envScriptRejected : HandlerEnv :=
  { slideData := some "c2xpZGVz", fileName := "deck.pdf"
    settings := sampleSettings, apiKey := some "sk-test"
    scriptFetchMs := some 120
    scriptFetch := Except.ok
      { ok := false, status := 429, statusText := "Too Many Requests", payload := "" }
    audioFetchMs := some 80
    audioFetch := fun _ => Except.ok
      { ok := true, status := 200, statusText := "OK", payload := "QUJD" }
    now := 1700000000000 }

/-- A request where both calls succeed but the chat completion content is
    the empty string. -/
def envEmptyScript : HandlerEnv :=
  { slideData := some "c2xpZGVz", fileName := "deck.pdf"
    settings := sampleSettings, apiKey := some "sk-test"
    scriptFetchMs := some 150
    scriptFetch := Except.ok
      { ok := true, status := 200, statusText := "OK", payload := "" }
    audioFetchMs := some 90
    audioFetch := fun _ => Except.ok
      { ok := true, status := 200, statusText := "OK", payload := "QUJD" }
    now := 1700000000000 }

/-- A fully successful request with a nonempty script. -/
def envAllOk : HandlerEnv :=
  { slideData := some "c2xpZGVz", fileName := "deck.pdf"
    settings := sampleSettings, apiKey := some "sk-test"
    scriptFetchMs := some 150
    scriptFetch := Except.ok
      { ok := true, status := 200, statusText := "OK"
        payload := "Welcome to the presentation." }
    audioFetchMs := some 90
    audioFetch := fun _ => Except.ok
      { ok := true, status := 200, statusText := "OK", payload := "QUJD" }
    now := 1700000000000 }

/-- A fan-out request over two slides where every upstream call fails. -/
def fanoutEnvDegraded : FanoutEnv :=
  { slides :=
      [{ content := "Intro", duration := 10, notes := none },
       { content := "Results", duration := 20, notes := some "speak slowly" }]
    settings := { voiceType := "nova", speed := 1, resolution := "1080p"
                  style := "professional" }
    apiKey := some "sk-test"
    scriptOutcome := fun _ => Except.error "fetch failed"
    voiceOutcome := fun _ => Except.ok
      { ok := false, status := 500, statusText := "Internal Server Error", payload := "" }
    visualOutcome := fun _ => Except.error "fetch failed" }

end MediaSense

namespace MediaSense

/-! # Theorems -/

/-! ## C4: the overall progress fold -/

/-- The overall-progress fold accumulates exactly the scaled credits. -/
theorem foldl_progress_eq (l : List StageData) : ∀ a : ℚ,
    l.foldl
      (fun acc sd =>
        match sd.status with
        | PStatus.complete => acc + 100 / 7
        | PStatus.processing => acc + sd.progress / 7
        | _ => acc) a
      = a + (l.map stageCredit).sum / 7 := by
  induction l with
  | nil => intro a; simp
  | cons sd t ih =>
      intro a
      simp only [List.foldl_cons, List.map_cons, List.sum_cons]
      rw [ih]
      cases h : sd.status <;> simp [stageCredit, h] <;> ring

/-- C4: over the fixed record of 7 named stages, the reported overall
    progress equals the sum over stages of 100/7 for each complete stage
    plus progress/7 for each processing stage, all other statuses
    contributing 0 — that is, the total stage credit (100 per complete
    stage, the processing stage's partial progress) scaled by 1/N with
    N = 7 the number of stages. -/
theorem C4_overall_progress (st : ProcessingState) :
    overallProgress st = ((stageOrder.map st.stages).map stageCredit).sum / 7
    ∧ stageOrder.length = 7 := by
  constructor
  · rw [overallProgress, foldl_progress_eq]
    ring
  · rfl

/-! ## C7: the upload validator -/

/-- C7: a file whose MIME type is on the allowlist and whose size is at
    most 500MB is accepted; any other file is rejected with a toast titled
    "Unsupported file type" or "File too large", onFileUpload is never
    called, and no further processing occurs. -/
theorem C7_validate_file (f : JsFile) :
    (f.type ∈ acceptedVideoTypes → f.size ≤ maxFileSize →
       validateFile f = (true, none) ∧ handleFileProcess f = some f)
    ∧ ((f.type ∉ acceptedVideoTypes ∨ maxFileSize < f.size) →
       (validateFile f).1 = false
       ∧ (∃ t, (validateFile f).2 = some t ∧
           (t.title = "Unsupported file type" ∨ t.title = "File too large"))
       ∧ handleFileProcess f = none) := by
  by_cases hm : f.type ∈ acceptedVideoTypes
  · by_cases hs : maxFileSize < f.size
    · have hv : (validateFile f).1 = false ∧
          (validateFile f).2
            = some ⟨"File too large", "Please upload a video file smaller than 500MB"⟩ := by
        constructor <;> simp [validateFile, hm, hs]
      refine ⟨fun _ hsz => absurd hs (by omega), fun _ => ?_⟩
      exact ⟨hv.1, ⟨_, hv.2, Or.inr rfl⟩, by simp [handleFileProcess, hv.1]⟩
    · have hv : validateFile f = (true, none) := by simp [validateFile, hm, hs]
      refine ⟨fun _ _ => ⟨hv, by simp [handleFileProcess, hv]⟩, fun hbad => ?_⟩
      rcases hbad with hbad | hbad
      · exact absurd hm hbad
      · exact absurd hbad hs
  · have hv : (validateFile f).1 = false ∧
        (validateFile f).2 = some
          ⟨"Unsupported file type", "Please upload a video file (.mp4, .mov, .avi, .mkv, .webm)"⟩ := by
      constructor <;> simp [validateFile, hm]
    refine ⟨fun hmem _ => absurd hmem hm, fun _ => ?_⟩
    exact ⟨hv.1, ⟨_, hv.2, Or.inl rfl⟩, by simp [handleFileProcess, hv.1]⟩

/-- Witness for C7: a 10MB mp4 is accepted; an executable is rejected with
    no state mutation. -/
theorem C7_validate_file_witness :
    validateFile ⟨"demo.mp4", "video/mp4", 10485760⟩ = (true, none)
    ∧ ((validateFile ⟨"setup.exe", "application/x-msdownload", 2048⟩).1 = false
       ∧ handleFileProcess ⟨"setup.exe", "application/x-msdownload", 2048⟩ = none) :=
  ⟨((C7_validate_file _).1 (by decide) (by decide)).1,
   ((C7_validate_file _).2 (Or.inl (by decide))).1,
   ((C7_validate_file _).2 (Or.inl (by decide))).2.2⟩

/-! ## C6 and C9: the timer-driven progress simulation -/

/-- Stage targets grow with the stage index. -/
theorem stageTarget_mono (cfg : SimConfig) {i j : Nat} (h : i ≤ j) :
    stageTarget cfg i ≤ stageTarget cfg j := by
  unfold stageTarget
  have hq : (0 : ℚ) ≤ 100 / cfg.stages.length := by positivity
  have hij : ((i : ℚ) + 1) ≤ (j : ℚ) + 1 := by exact_mod_cast Nat.succ_le_succ h
  exact mul_le_mul_of_nonneg_right hij hq

/-- The running invariant of the simulation: the displayed value never
    exceeds the counter, the stage index never passes the stage count, and
    the displayed value stays under the target of the stage it was last
    computed in. -/
def SimInv (cfg : SimConfig) (s : SimState) : Prop :=
  s.displayed ≤ s.counter
  ∧ s.stageIndex ≤ cfg.stages.length
  ∧ s.displayed ≤ stageTarget cfg (min s.stageIndex (cfg.stages.length - 1))

/-- Tick equation while a stage is running and the counter reaches the
    target: the interval is cleared and the stage index advances. -/
theorem simTick_advance (cfg : SimConfig) (s : SimState)
    (hi : s.stageIndex < cfg.stages.length)
    (hadv : stageTarget cfg s.stageIndex ≤ s.counter + cfg.increment) :
    simTick cfg s =
      { stageIndex := s.stageIndex + 1, counter := s.counter + cfg.increment
        displayed := min (s.counter + cfg.increment) (stageTarget cfg s.stageIndex) } := by
  simp [simTick, hi, hadv]

/-- Tick equation while a stage is running and the counter stays short of
    the target. -/
theorem simTick_stay (cfg : SimConfig) (s : SimState)
    (hi : s.stageIndex < cfg.stages.length)
    (hadv : ¬ stageTarget cfg s.stageIndex ≤ s.counter + cfg.increment) :
    simTick cfg s =
      { stageIndex := s.stageIndex, counter := s.counter + cfg.increment
        displayed := min (s.counter + cfg.increment) (stageTarget cfg s.stageIndex) } := by
  simp [simTick, hi, hadv]

/-- Tick equation after the last stage: the state is frozen. -/
theorem simTick_frozen (cfg : SimConfig) (s : SimState)
    (hi : ¬ s.stageIndex < cfg.stages.length) : simTick cfg s = s := by
  simp [simTick, hi]

/-- One tick preserves the invariant. -/
theorem simTick_inv (cfg : SimConfig) (s : SimState)
    (h : SimInv cfg s) : SimInv cfg (simTick cfg s) := by
  obtain ⟨hdc, hil, hdt⟩ := h
  by_cases hi : s.stageIndex < cfg.stages.length
  · by_cases hadv : stageTarget cfg s.stageIndex ≤ s.counter + cfg.increment
    · rw [simTick_advance cfg s hi hadv]
      refine ⟨min_le_left _ _, by show s.stageIndex + 1 ≤ _; omega, ?_⟩
      show min _ _ ≤ stageTarget cfg (min (s.stageIndex + 1) (cfg.stages.length - 1))
      refine le_trans (min_le_right _ _) (stageTarget_mono cfg ?_)
      omega
    · rw [simTick_stay cfg s hi hadv]
      refine ⟨min_le_left _ _, by show s.stageIndex ≤ _; omega, ?_⟩
      show min _ _ ≤ stageTarget cfg (min s.stageIndex (cfg.stages.length - 1))
      have hmin : min s.stageIndex (cfg.stages.length - 1) = s.stageIndex := by omega
      rw [hmin]
      exact min_le_right _ _
  · rw [simTick_frozen cfg s hi]
    exact ⟨hdc, hil, hdt⟩

/-- The invariant holds after any number of ticks. -/
theorem simRun_inv (cfg : SimConfig) (n : Nat) : SimInv cfg (simRun cfg n) := by
  induction n with
  | zero =>
      refine ⟨le_refl _, Nat.zero_le _, ?_⟩
      unfold stageTarget
      positivity
  | succ n ih => exact simTick_inv cfg _ ih

/-- C6: in the timer-driven progress simulation, the displayed percentage
    is monotonically non-decreasing from tick to tick (in particular it is
    never reset to 0 after becoming positive, so a reset could only
    coincide with a stage start); the stage index advances strictly in the
    declared order, by at most one per tick, and only once the counter has
    reached the current stage's completion target; while a stage is
    running the counter advances by the fixed increment each tick of the
    recurring interval; and both concrete drivers use a fixed tick period
    and a short fixed delay before the next stage (100ms/500ms for the
    slides page, 80ms/300ms for the analysis page). -/
theorem C6_progress_driver (cfg : SimConfig) (n : Nat) (hinc : 0 ≤ cfg.increment) :
    (simRun cfg n).displayed ≤ (simRun cfg (n + 1)).displayed
    ∧ ((simRun cfg (n + 1)).stageIndex = (simRun cfg n).stageIndex
       ∨ (simRun cfg (n + 1)).stageIndex = (simRun cfg n).stageIndex + 1)
    ∧ ((simRun cfg (n + 1)).stageIndex = (simRun cfg n).stageIndex + 1 →
        stageTarget cfg (simRun cfg n).stageIndex
          ≤ (simRun cfg n).counter + cfg.increment)
    ∧ ((simRun cfg n).stageIndex < cfg.stages.length →
        (simRun cfg (n + 1)).counter = (simRun cfg n).counter + cfg.increment)
    ∧ (slideToVideoSim.tickMs = 100 ∧ slideToVideoSim.nextStageDelayMs = 500
       ∧ videoAnalysisSim.tickMs = 80 ∧ videoAnalysisSim.nextStageDelayMs = 300) := by
  obtain ⟨hdc, hil, hdt⟩ := simRun_inv cfg n
  have hstep : simRun cfg (n + 1) = simTick cfg (simRun cfg n) := rfl
  rw [hstep]
  set s := simRun cfg n with hs
  by_cases hi : s.stageIndex < cfg.stages.length
  · have hmin : min s.stageIndex (cfg.stages.length - 1) = s.stageIndex := by omega
    rw [hmin] at hdt
    by_cases hadv : stageTarget cfg s.stageIndex ≤ s.counter + cfg.increment
    · rw [simTick_advance cfg s hi hadv]
      exact ⟨le_min (by linarith) hdt, Or.inr rfl, fun _ => hadv, fun _ => rfl,
        rfl, rfl, rfl, rfl⟩
    · rw [simTick_stay cfg s hi hadv]
      exact ⟨le_min (by linarith) hdt, Or.inl rfl,
        fun h => absurd h (by show ¬ s.stageIndex = _; omega), fun _ => rfl,
        rfl, rfl, rfl, rfl⟩
  · rw [simTick_frozen cfg s hi]
    exact ⟨le_refl _, Or.inl rfl, fun h => by omega, fun h => absurd h hi,
      rfl, rfl, rfl, rfl⟩

/-- Witness for C6 at the slides-page driver after three ticks. -/
theorem C6_progress_driver_witness :
    (0 : ℚ) ≤ slideToVideoSim.increment
    ∧ ((simRun slideToVideoSim 3).displayed ≤ (simRun slideToVideoSim 4).displayed
       ∧ ((simRun slideToVideoSim 4).stageIndex = (simRun slideToVideoSim 3).stageIndex
          ∨ (simRun slideToVideoSim 4).stageIndex = (simRun slideToVideoSim 3).stageIndex + 1)
       ∧ ((simRun slideToVideoSim 4).stageIndex = (simRun slideToVideoSim 3).stageIndex + 1 →
           stageTarget slideToVideoSim (simRun slideToVideoSim 3).stageIndex
             ≤ (simRun slideToVideoSim 3).counter + slideToVideoSim.increment)
       ∧ ((simRun slideToVideoSim 3).stageIndex < slideToVideoSim.stages.length →
           (simRun slideToVideoSim 4).counter
             = (simRun slideToVideoSim 3).counter + slideToVideoSim.increment)
       ∧ (slideToVideoSim.tickMs = 100 ∧ slideToVideoSim.nextStageDelayMs = 500
          ∧ videoAnalysisSim.tickMs = 80 ∧ videoAnalysisSim.nextStageDelayMs = 300)) :=
  ⟨by decide, C6_progress_driver slideToVideoSim 3 (by decide)⟩

/-- C9: at every tick taken while a stage is running, the value passed to
    the progress setter is exactly min(counter + increment, cumulative
    stage target), and the displayed value never exceeds the running
    stage's cumulative target nor 100. -/
theorem C9_progress_capped (cfg : SimConfig) (n : Nat)
    (hlen : 0 < cfg.stages.length) :
    ((simRun cfg n).stageIndex < cfg.stages.length →
       (simRun cfg (n + 1)).displayed
         = min ((simRun cfg n).counter + cfg.increment)
             (stageTarget cfg (simRun cfg n).stageIndex))
    ∧ (simRun cfg n).displayed
        ≤ stageTarget cfg (min (simRun cfg n).stageIndex (cfg.stages.length - 1))
    ∧ (simRun cfg n).displayed ≤ 100 := by
  obtain ⟨hdc, hil, hdt⟩ := simRun_inv cfg n
  have htop : stageTarget cfg (cfg.stages.length - 1) = 100 := by
    unfold stageTarget
    have hc : ((cfg.stages.length - 1 : Nat) : ℚ) + 1 = (cfg.stages.length : ℚ) := by
      exact_mod_cast Nat.sub_add_cancel hlen
    rw [hc]
    have hne : (cfg.stages.length : ℚ) ≠ 0 := by positivity
    field_simp
  refine ⟨fun hi => ?_, hdt, ?_⟩
  · have hstep : simRun cfg (n + 1) = simTick cfg (simRun cfg n) := rfl
    rw [hstep]
    by_cases hadv : stageTarget cfg (simRun cfg n).stageIndex
        ≤ (simRun cfg n).counter + cfg.increment
    · rw [simTick_advance cfg _ hi hadv]
    · rw [simTick_stay cfg _ hi hadv]
  · calc (simRun cfg n).displayed
        ≤ stageTarget cfg (min (simRun cfg n).stageIndex (cfg.stages.length - 1)) := hdt
      _ ≤ stageTarget cfg (cfg.stages.length - 1) := stageTarget_mono cfg (by omega)
      _ = 100 := htop

/-- Witness for C9 at the analysis-page driver after two ticks. -/
theorem C9_progress_capped_witness :
    (0 < videoAnalysisSim.stages.length ∧ (0 : ℚ) ≤ videoAnalysisSim.increment)
    ∧ (((simRun videoAnalysisSim 2).stageIndex < videoAnalysisSim.stages.length →
         (simRun videoAnalysisSim 3).displayed
           = min ((simRun videoAnalysisSim 2).counter + videoAnalysisSim.increment)
               (stageTarget videoAnalysisSim (simRun videoAnalysisSim 2).stageIndex))
       ∧ (simRun videoAnalysisSim 2).displayed
           ≤ stageTarget videoAnalysisSim
               (min (simRun videoAnalysisSim 2).stageIndex
                 (videoAnalysisSim.stages.length - 1))
       ∧ (simRun videoAnalysisSim 2).displayed ≤ 100) :=
  ⟨⟨by decide, by norm_num [videoAnalysisSim]⟩, C9_progress_capped videoAnalysisSim 2 (by decide)⟩

/-! ## Number rendering lemmas for the JSON round-trip (C8) -/

/-- Unfolding equation of the digit renderer. -/
theorem natChars_eq (n : Nat) :
    natChars n = if n < 10 then [decChar n]
                 else natChars (n / 10) ++ [decChar (n % 10)] := by
  rw [natChars]

/-- The code point of a digit character. -/
theorem decChar_toNat (d : Nat) (h : d < 10) : (decChar d).toNat = 48 + d := by
  interval_cases d <;> decide

/-- Digit characters pass the digit test. -/
theorem isDig_decChar (d : Nat) (h : d < 10) : isDig (decChar d) = true := by
  interval_cases d <;> decide

/-- A rendered number is never empty. -/
theorem natChars_ne_nil (n : Nat) : natChars n ≠ [] := by
  rw [natChars_eq]
  split <;> simp

/-- Every character of a rendered number is a digit. -/
theorem natChars_digits (n : Nat) : ∀ c ∈ natChars n, isDig c = true := by
  induction n using Nat.strong_induction_on with
  | _ n ih =>
      rw [natChars_eq]
      split
      · intro c hc
        rw [List.mem_singleton] at hc
        subst hc
        exact isDig_decChar n (by omega)
      · intro c hc
        rw [List.mem_append] at hc
        rcases hc with hc | hc
        · exact ih (n / 10) (by omega) c hc
        · rw [List.mem_singleton] at hc
          subst hc
          exact isDig_decChar (n % 10) (by omega)

/-- A rendered number starts with a digit. -/
theorem natChars_head (n : Nat) :
    ∃ c t, natChars n = c :: t ∧ isDig c = true := by
  cases h : natChars n with
  | nil => exact absurd h (natChars_ne_nil n)
  | cons c t =>
      exact ⟨c, t, rfl, natChars_digits n c (h ▸ List.mem_cons_self c t)⟩

/-- A number below 10^k renders in at most k digits. -/
theorem natChars_length_le (k : Nat) : ∀ n : Nat, 1 ≤ k → n < 10 ^ k →
    (natChars n).length ≤ k := by
  induction k with
  | zero => omega
  | succ k ih =>
      intro n _ hn
      rw [natChars_eq]
      split
      · simp
      · rename_i h10
        have hk1 : 1 ≤ k := by
          by_contra hk0
          have : k = 0 := by omega
          subst this
          simp at hn
          omega
        have := ih (n / 10) hk1 (by
          have hp : 10 ^ (k + 1) = 10 ^ k * 10 := by ring
          rw [hp] at hn
          omega)
        simp only [List.length_append, List.length_singleton]
        omega

/-- Appending one digit multiplies the value by ten and adds it. -/
theorem valOfDigits_append (ds : List Char) (c : Char) :
    valOfDigits (ds ++ [c]) = 10 * valOfDigits ds + (c.toNat - 48) := by
  simp [valOfDigits, List.foldl_append]

/-- The digit renderer and the digit evaluator are inverse. -/
theorem valOfDigits_natChars (n : Nat) : valOfDigits (natChars n) = n := by
  induction n using Nat.strong_induction_on with
  | _ n ih =>
      rw [natChars_eq]
      split
      · rename_i h
        simp [valOfDigits, decChar_toNat n h]
      · rename_i h
        rw [valOfDigits_append, ih (n / 10) (by omega), decChar_toNat (n % 10) (by omega)]
        omega

/-- Leading zero padding does not change the value of a digit run. -/
theorem valOfDigits_zeros (k : Nat) (ds : List Char) :
    valOfDigits (List.replicate k '0' ++ ds) = valOfDigits ds := by
  induction k with
  | zero => simp
  | succ k ih =>
      rw [List.replicate_succ, List.cons_append]
      show valOfDigits (List.replicate k '0' ++ ds) = valOfDigits ds
      exact ih

/-- The padded fraction block: length exactly e, all digits, value r. -/
theorem padDigits_spec (e r : Nat) (he : 1 ≤ e) (hr : r < 10 ^ e) :
    (padDigits e r).length = e
    ∧ (∀ c ∈ padDigits e r, isDig c = true)
    ∧ valOfDigits (padDigits e r) = r := by
  have hle := natChars_length_le e r he hr
  refine ⟨?_, ?_, ?_⟩
  · simp only [padDigits, List.length_append, List.length_replicate]
    omega
  · intro c hc
    simp only [padDigits, List.mem_append, List.mem_replicate] at hc
    rcases hc with ⟨_, hc⟩ | hc
    · subst hc; decide
    · exact natChars_digits r c hc
  · rw [padDigits, valOfDigits_zeros, valOfDigits_natChars]

/-! ## Number parsing lemmas for the JSON round-trip (C8) -/

/-- grabDigits stops at a non-digit head. -/
theorem grabDigits_not (c : Char) (t : List Char) (h : isDig c = false) :
    grabDigits (c :: t) = ([], c :: t) := by
  simp [grabDigits, h]

/-- grabDigits stops on digit-free input. -/
theorem grabDigits_stop (cs : List Char) (h : headNotDig cs = true) :
    grabDigits cs = ([], cs) := by
  cases cs with
  | nil => rfl
  | cons c t =>
      simp only [headNotDig, Bool.not_eq_eq_eq_not, Bool.not_true] at h
      exact grabDigits_not c t h

/-- grabDigits consumes exactly a digit run followed by a non-digit. -/
theorem grabDigits_run (ds : List Char) (hds : ∀ c ∈ ds, isDig c = true)
    (rest : List Char) (hrest : grabDigits rest = ([], rest)) :
    grabDigits (ds ++ rest) = (ds, rest) := by
  induction ds with
  | nil => simpa using hrest
  | cons c t ih =>
      have hc : isDig c = true := hds c (List.mem_cons_self c t)
      have ht := ih fun x hx => hds x (List.mem_cons_of_mem c hx)
      simp [grabDigits, hc, ht]

/-- A numStop input is digit-free. -/
theorem headNotDig_of_numStop (cs : List Char) (h : numStop cs = true) :
    headNotDig cs = true := by
  cases cs with
  | nil => rfl
  | cons c t =>
      simp only [numStop, Bool.not_eq_eq_eq_not, Bool.not_true, Bool.or_eq_false_iff] at h
      simp [headNotDig, h.1]

/-- Properties of a digit head: it is not whitespace and none of the
    delimiter or dispatch characters. -/
theorem isDig_props (c : Char) (h : isDig c = true) :
    jWs c = false ∧ c ≠ '.' ∧ c ≠ '-' ∧ c ≠ ']' ∧ c ≠ '}' ∧ c ≠ ','
    ∧ c ≠ 'n' ∧ c ≠ 't' ∧ c ≠ 'f' ∧ c ≠ '"' ∧ c ≠ '[' ∧ c ≠ '{' := by
  simp only [isDig, Bool.and_eq_true, decide_eq_true_eq] at h
  refine ⟨?_, ?_, ?_, ?_, ?_, ?_, ?_, ?_, ?_, ?_, ?_, ?_⟩
  · simp only [jWs, Bool.or_eq_false_iff, decide_eq_false_iff_not]
    refine ⟨⟨⟨?_, ?_⟩, ?_⟩, ?_⟩ <;> (rintro rfl; revert h; decide)
  all_goals (rintro rfl; revert h; decide)

/-- The unsigned number parser inverts the unsigned renderer (scale 0). -/
theorem pNumAbs_int (n : Nat) (rest : List Char) (h : numStop rest = true) :
    pNumAbs (natChars n ++ rest) = some ((n, 0), rest) := by
  have hgrab := grabDigits_run (natChars n) (natChars_digits n) rest
    (grabDigits_stop rest (headNotDig_of_numStop rest h))
  have hdot : rest.head? ≠ some '.' := by
    cases rest with
    | nil => simp
    | cons r rs =>
        simp only [numStop, Bool.not_eq_eq_eq_not, Bool.not_true, Bool.or_eq_false_iff,
          decide_eq_false_iff_not] at h
        simp [h.2]
  simp only [pNumAbs, hgrab]
  rw [if_neg (natChars_ne_nil n), if_neg hdot, valOfDigits_natChars]

/-- The unsigned number parser inverts the unsigned renderer (positive
    scale, with the padded fraction block). -/
theorem pNumAbs_frac (n e : Nat) (he : 1 ≤ e) (rest : List Char)
    (h : numStop rest = true) :
    pNumAbs (natChars (n / 10 ^ e) ++ '.' :: (padDigits e (n % 10 ^ e) ++ rest))
      = some ((n, e), rest) := by
  obtain ⟨hpl, hpd, hpv⟩ := padDigits_spec e (n % 10 ^ e) he
    (Nat.mod_lt n (by positivity))
  have hpne : padDigits e (n % 10 ^ e) ≠ [] := by
    intro hnil
    rw [hnil] at hpl
    simp at hpl
    omega
  have hgrab1 := grabDigits_run (natChars (n / 10 ^ e)) (natChars_digits _)
    ('.' :: (padDigits e (n % 10 ^ e) ++ rest)) (grabDigits_not _ _ (by decide))
  have hgrab2 := grabDigits_run (padDigits e (n % 10 ^ e)) hpd rest
    (grabDigits_stop rest (headNotDig_of_numStop rest h))
  simp only [pNumAbs, hgrab1]
  rw [if_neg (natChars_ne_nil _)]
  simp only [List.head?_cons, List.tail_cons, if_pos rfl, hgrab2]
  rw [if_neg hpne, valOfDigits_natChars, hpl, hpv, Nat.mul_comm]
  rw [Nat.div_add_mod n (10 ^ e)]
  simp

/-- The signed number parser inverts the number renderer whenever the
    remainder cannot extend the number. -/
theorem pNumber_numChars (m : Int) (e : Nat) (he : e = 0 ∨ 1 ≤ e)
    (rest : List Char) (h : numStop rest = true) :
    pNumber (numChars m e ++ rest) = some ((m, e), rest) := by
  have habs : pNumAbs ((if e = 0 then natChars m.natAbs
      else natChars (m.natAbs / 10 ^ e) ++ '.' :: padDigits e (m.natAbs % 10 ^ e)) ++ rest)
      = some ((m.natAbs, e), rest) := by
    rcases he with he | he
    · subst he
      simp only [if_pos rfl]
      exact pNumAbs_int m.natAbs rest h
    · rw [if_neg (by omega)]
      have := pNumAbs_frac m.natAbs e he rest h
      simpa [List.append_assoc] using this
  by_cases hm : m < 0
  · have harg : numChars m e ++ rest
        = '-' :: ((if e = 0 then natChars m.natAbs
            else natChars (m.natAbs / 10 ^ e)
              ++ '.' :: padDigits e (m.natAbs % 10 ^ e)) ++ rest) := by
      simp [numChars, hm]
    rw [harg]
    simp only [pNumber, List.head?_cons, if_pos rfl, List.tail_cons, habs]
    have hneg : (-(m.natAbs : Int)) = m := by omega
    simp [hneg, abs_of_neg hm]
  · have hstarts : ∃ c t, (if e = 0 then natChars m.natAbs
        else natChars (m.natAbs / 10 ^ e) ++ '.' :: padDigits e (m.natAbs % 10 ^ e))
          = c :: t ∧ isDig c = true := by
      split
      · exact natChars_head m.natAbs
      · obtain ⟨c, t, hct, hc⟩ := natChars_head (m.natAbs / 10 ^ e)
        exact ⟨c, t ++ '.' :: padDigits e (m.natAbs % 10 ^ e), by simp [hct], hc⟩
    obtain ⟨c, t, hct, hc⟩ := hstarts
    have hminus : c ≠ '-' := (isDig_props c hc).2.2.1
    have harg : numChars m e ++ rest = c :: (t ++ rest) := by
      simp [numChars, hm, hct]
    rw [hct] at habs
    simp only [List.cons_append] at habs
    rw [harg]
    simp only [pNumber, List.head?_cons]
    rw [if_neg (by simpa using hminus), habs]
    have hpos : ((m.natAbs : Int)) = m := by omega
    simp [hpos]

/-! ## String escaping lemmas for the JSON round-trip (C8) -/

/-- Hex digit characters evaluate back to their value. -/
theorem hexVal_hexChar (d : Nat) (h : d < 16) : hexVal (hexChar d) = some d := by
  interval_cases d <;> decide

/-- Parsing one escaped character undoes the escaping. -/
theorem pText_escChar (c : Char) (acc rest : List Char) :
    pText acc (escChar c ++ rest) = pText (c :: acc) rest := by
  by_cases h1 : c = '"'
  · subst h1; simp [escChar, pText, unescChar]
  · by_cases h2 : c = '\\'
    · subst h2; simp [escChar, pText, unescChar]
    · by_cases h3 : c = '\n'
      · subst h3; simp [escChar, pText, unescChar]
      · by_cases h4 : c = '\r'
        · subst h4; simp [escChar, pText, unescChar]
        · by_cases h5 : c = '\t'
          · subst h5; simp [escChar, pText, unescChar]
          · by_cases h6 : c.toNat = 8
            · have hc : c = Char.ofNat 8 := by rw [← h6, Char.ofNat_toNat]
              subst hc
              simp [escChar, pText, unescChar]
            · by_cases h7 : c.toNat = 12
              · have hc : c = Char.ofNat 12 := by rw [← h7, Char.ofNat_toNat]
                subst hc
                simp [escChar, pText, unescChar]
              · by_cases h8 : c.toNat < 32
                · have e1 : escChar c = ['\\', 'u', '0', '0',
                      hexChar (c.toNat / 16), hexChar (c.toNat % 16)] := by
                    rw [escChar, if_neg h1, if_neg h2, if_neg h3, if_neg h4, if_neg h5,
                      if_neg h6, if_neg h7, if_pos h8]
                  rw [e1]
                  show pText acc ('\\' :: 'u' :: '0' :: '0'
                    :: hexChar (c.toNat / 16) :: hexChar (c.toNat % 16) :: rest)
                    = pText (c :: acc) rest
                  have hhi := hexVal_hexChar (c.toNat / 16) (by omega)
                  have hlo := hexVal_hexChar (c.toNat % 16) (by omega)
                  have harith : (((0 * 16 + 0) * 16 + c.toNat / 16) * 16 + c.toNat % 16)
                      = c.toNat := by omega
                  have h0 : hexVal '0' = some 0 := by decide
                  have harith2 : c.toNat / 16 * 16 + c.toNat % 16 = c.toNat := by omega
                  simp only [pText, h0, hhi, hlo]
                  rw [harith, Char.ofNat_toNat]
                · have e1 : escChar c = [c] := by
                    rw [escChar, if_neg h1, if_neg h2, if_neg h3, if_neg h4, if_neg h5,
                      if_neg h6, if_neg h7, if_neg h8]
                  rw [e1]
                  show pText acc (c :: rest) = pText (c :: acc) rest
                  rw [pText.eq_def]
                  simp [h1, h2]

/-- Parsing an escaped run stops exactly at the closing quote, returning
    the original characters. -/
theorem pText_escList (cs : List Char) : ∀ (acc rest : List Char),
    pText acc (escList cs ++ '"' :: rest)
      = some (String.mk (acc.reverse ++ cs), rest) := by
  induction cs with
  | nil => intro acc rest; simp [escList, pText]
  | cons c t ih =>
      intro acc rest
      rw [escList, List.append_assoc, pText_escChar, ih]
      simp

/-- The string codec round-trip: a rendered string parses back to itself. -/
theorem pText_strBody (s : String) (rest : List Char) :
    pText [] (escList s.toList ++ '"' :: rest) = some (s, rest) := by
  rw [pText_escList]
  rfl

/-! ## Whitespace and dispatch lemmas for the JSON round-trip (C8) -/

/-- Whitespace characters are neither digits nor the decimal point. -/
theorem jWs_props (c : Char) (h : jWs c = true) :
    isDig c = false ∧ c ≠ '.' := by
  simp only [jWs, Bool.or_eq_true, decide_eq_true_eq] at h
  rcases h with ((h | h) | h) | h <;> subst h <;> exact ⟨by decide, by decide⟩

/-- dropWs passes over a whitespace-only prefix. -/
theorem dropWs_ws_append (w : List Char) (x : List Char) (hw : wsOnly w = true) :
    dropWs (w ++ x) = dropWs x := by
  induction w with
  | nil => rfl
  | cons c t ih =>
      simp only [wsOnly, List.all_cons, Bool.and_eq_true] at hw
      rw [List.cons_append, dropWs, if_pos hw.1]
      exact ih (by simp [wsOnly, hw.2])

/-- An indentation block is whitespace only. -/
theorem wsOnly_nlIndent (n : Nat) : wsOnly (nlIndent n) = true := by
  simp only [wsOnly, nlIndent, List.all_cons, Bool.and_eq_true]
  refine ⟨by decide, ?_⟩
  simp only [List.all_eq_true]
  intro c hc
  rw [List.eq_of_mem_replicate hc]
  decide

/-- dropWs passes over an indentation block. -/
theorem dropWs_nlIndent (n : Nat) (x : List Char) :
    dropWs (nlIndent n ++ x) = dropWs x :=
  dropWs_ws_append (nlIndent n) x (wsOnly_nlIndent n)

/-- dropWs is the identity on input headed by a non-whitespace character. -/
theorem dropWs_cons_not (c : Char) (t : List Char) (h : jWs c = false) :
    dropWs (c :: t) = c :: t := by
  simp [dropWs, h]

/-- The first character of a rendered number is a minus sign or a digit. -/
theorem numChars_head (m : Int) (e : Nat) :
    ∃ c t, numChars m e = c :: t ∧ (c = '-' ∨ isDig c = true) := by
  by_cases hm : m < 0
  · refine ⟨'-', (if e = 0 then natChars m.natAbs
      else natChars (m.natAbs / 10 ^ e) ++ '.' :: padDigits e (m.natAbs % 10 ^ e)),
      ?_, Or.inl rfl⟩
    simp [numChars, hm]
  · by_cases he : e = 0
    · obtain ⟨c, t, hct, hc⟩ := natChars_head m.natAbs
      exact ⟨c, t, by simp [numChars, hm, he, hct], Or.inr hc⟩
    · obtain ⟨c, t, hct, hc⟩ := natChars_head (m.natAbs / 10 ^ e)
      exact ⟨c, t ++ '.' :: padDigits e (m.natAbs % 10 ^ e),
        by simp [numChars, hm, he, hct], Or.inr hc⟩

/-- Every rendered value starts with a character that is not whitespace
    and closes nothing. -/
theorem renderHead (ind : Nat) (v : Json) :
    ∃ c t, jRender ind v = c :: t
      ∧ jWs c = false ∧ c ≠ ']' ∧ c ≠ '}' ∧ c ≠ ',' := by
  cases v with
  | null => exact ⟨'n', _, rfl, by decide, by decide, by decide, by decide⟩
  | bool b =>
      cases b with
      | true => exact ⟨'t', _, rfl, by decide, by decide, by decide, by decide⟩
      | false => exact ⟨'f', _, rfl, by decide, by decide, by decide, by decide⟩
  | num m e =>
      obtain ⟨c, t, hct, hc⟩ := numChars_head m e
      have hprops : jWs c = false ∧ c ≠ ']' ∧ c ≠ '}' ∧ c ≠ ',' := by
        rcases hc with hc | hc
        · subst hc
          exact ⟨by decide, by decide, by decide, by decide⟩
        · obtain ⟨h1, _, _, h4, h5, h6, _⟩ := isDig_props c hc
          exact ⟨h1, h4, h5, h6⟩
      exact ⟨c, t, by simp [jRender, hct], hprops.1, hprops.2.1, hprops.2.2.1,
        hprops.2.2.2⟩
  | str s => exact ⟨'"', _, rfl, by decide, by decide, by decide, by decide⟩
  | arr items =>
      cases items with
      | nil => exact ⟨'[', _, rfl, by decide, by decide, by decide, by decide⟩
      | cons x xs => exact ⟨'[', _, rfl, by decide, by decide, by decide, by decide⟩
  | obj fields =>
      cases fields with
      | nil => exact ⟨'{', _, rfl, by decide, by decide, by decide, by decide⟩
      | cons f fs => exact ⟨'{', _, rfl, by decide, by decide, by decide, by decide⟩

/-- dropWs is the identity on a rendered value followed by anything. -/
theorem dropWs_render (ind : Nat) (v : Json) (x : List Char) :
    dropWs (jRender ind v ++ x) = jRender ind v ++ x := by
  obtain ⟨c, t, hct, hws, _, _, _⟩ := renderHead ind v
  rw [hct, List.cons_append]
  exact dropWs_cons_not c _ hws

/-- A whitespace prefix does not change what pVal parses. -/
theorem pVal_ws (fuel : Nat) (w z : List Char) (hw : wsOnly w = true) :
    pVal fuel (w ++ z) = pVal fuel z := by
  cases fuel with
  | zero => rfl
  | succ f =>
      simp only [pVal]
      rw [dropWs_ws_append w z hw]

/-- Step lemma: pVal on an opening bracket. -/
theorem pVal_open_bracket (f : Nat) (r : List Char) :
    pVal (f + 1) ('[' :: r)
      = (if (dropWs r).head? = some ']' then some (Json.arr [], (dropWs r).tail)
         else (match pItems f (dropWs r) with
               | some (xs, r1) => some (Json.arr xs, r1)
               | none => none)) := rfl

/-- Step lemma: pVal on an opening brace. -/
theorem pVal_open_brace (f : Nat) (r : List Char) :
    pVal (f + 1) ('{' :: r)
      = (if (dropWs r).head? = some '}' then some (Json.obj [], (dropWs r).tail)
         else (match pFields f (dropWs r) with
               | some (fs, r1) => some (Json.obj fs, r1)
               | none => none)) := rfl

/-- Step lemma: pVal on an opening quote. -/
theorem pVal_quote (f : Nat) (r : List Char) :
    pVal (f + 1) ('"' :: r)
      = (match pText [] r with
         | some (s, r1) => some (Json.str s, r1)
         | none => none) := rfl

/-- Step lemma: pItems at successor fuel. -/
theorem pItems_step (f : Nat) (cs : List Char) :
    pItems (f + 1) cs
      = (match pVal f cs with
         | none => none
         | some (v, r) =>
             match dropWs r with
             | ',' :: r1 =>
                 (match pItems f r1 with
                  | some (vs, r2) => some (v :: vs, r2)
                  | none => none)
             | ']' :: r1 => some ([v], r1)
             | _ => none) := rfl

/-- Step lemma: pVal dispatches to the number parser when the head is
    none of the other value openers. -/
theorem pVal_dispatch_num (f : Nat) (c : Char) (t : List Char)
    (hws : jWs c = false) (hn : c ≠ 'n') (ht2 : c ≠ 't') (hf2 : c ≠ 'f')
    (hq : c ≠ '"') (hlb : c ≠ '[') (hob : c ≠ '{') :
    pVal (f + 1) (c :: t)
      = (match pNumber (c :: t) with
         | some (p, r1) => some (Json.num p.1 p.2, r1)
         | none => none) := by
  simp only [pVal]
  rw [dropWs_cons_not c t hws]
  simp [hn, ht2, hf2, hq, hlb, hob]

/-- numStop holds when the head is neither digit nor point. -/
theorem numStop_cons (c : Char) (t : List Char) (hd : isDig c = false)
    (hdot : c ≠ '.') : numStop (c :: t) = true := by
  simp [numStop, hd, hdot]

/-- numStop holds for input whose whitespace-stripped head is neither a
    digit nor a point. -/
theorem numStop_of_dropWs (tail : List Char) (c : Char) (rest : List Char)
    (h : dropWs tail = c :: rest) (hd : isDig c = false) (hdot : c ≠ '.') :
    numStop tail = true := by
  cases tail with
  | nil => simp [dropWs] at h
  | cons a t =>
      by_cases hws : jWs a = true
      · obtain ⟨h1, h2⟩ := jWs_props a hws
        exact numStop_cons a t h1 h2
      · rw [dropWs, if_neg (by simp [hws])] at h
        obtain ⟨ha, _⟩ := List.cons.inj h
        subst ha
        exact numStop_cons a t hd hdot

/-- Step lemma: pFields on an opening quote. -/
theorem pFields_quote (f : Nat) (r : List Char) :
    pFields (f + 1) ('"' :: r)
      = (match pText [] r with
         | none => none
         | some (k, r1) =>
             match dropWs r1 with
             | ':' :: r2 =>
                 (match pVal f r2 with
                  | none => none
                  | some (v, r3) =>
                      match dropWs r3 with
                      | ',' :: r4 =>
                          (match pFields f r4 with
                           | some (fs, r5) => some ((k, v) :: fs, r5)
                           | none => none)
                      | '}' :: r4 => some ([(k, v)], r4)
                      | _ => none)
             | _ => none) := rfl

/-! ## The JSON codec round-trip (C8) -/

mutual

/-- Parsing inverts the pretty renderer for every value, given enough
    fuel and a remainder that cannot extend a number. -/
theorem rtVal : ∀ (v : Json) (ind fuel : Nat) (rest : List Char),
    (jRender ind v).length < fuel → numStop rest = true →
    pVal fuel (jRender ind v ++ rest) = some (v, rest)
  | Json.null, ind, fuel, rest, hf, _ => by
      cases fuel with
      | zero => exact absurd hf (by simp)
      | succ f => rfl
  | Json.bool true, ind, fuel, rest, hf, _ => by
      cases fuel with
      | zero => exact absurd hf (by simp)
      | succ f => rfl
  | Json.bool false, ind, fuel, rest, hf, _ => by
      cases fuel with
      | zero => exact absurd hf (by simp)
      | succ f => rfl
  | Json.num m e, ind, fuel, rest, hf, hr => by
      cases fuel with
      | zero => exact absurd hf (by omega)
      | succ f =>
          obtain ⟨c, t, hct, hc⟩ := numChars_head m e
          have hdisp : jWs c = false ∧ c ≠ 'n' ∧ c ≠ 't' ∧ c ≠ 'f'
              ∧ c ≠ '"' ∧ c ≠ '[' ∧ c ≠ '{' := by
            rcases hc with hc | hc
            · subst hc
              exact ⟨by decide, by decide, by decide, by decide, by decide,
                by decide, by decide⟩
            · obtain ⟨h1, _, _, _, _, _, h7, h8, h9, h10, h11, h12⟩ := isDig_props c hc
              exact ⟨h1, h7, h8, h9, h10, h11, h12⟩
          have harg : jRender ind (Json.num m e) ++ rest = c :: (t ++ rest) := by
            show numChars m e ++ rest = c :: (t ++ rest)
            rw [hct]
            simp
          rw [harg, pVal_dispatch_num f c (t ++ rest) hdisp.1 hdisp.2.1
            hdisp.2.2.1 hdisp.2.2.2.1 hdisp.2.2.2.2.1 hdisp.2.2.2.2.2.1
            hdisp.2.2.2.2.2.2]
          have hnum : pNumber (c :: (t ++ rest)) = some ((m, e), rest) := by
            have hn := pNumber_numChars m e (by omega) rest hr
            rw [show numChars m e ++ rest = c :: (t ++ rest) from by rw [hct]; simp] at hn
            exact hn
          rw [hnum]
  | Json.str s, ind, fuel, rest, hf, _ => by
      cases fuel with
      | zero => exact absurd hf (by omega)
      | succ f =>
          have harg : jRender ind (Json.str s) ++ rest
              = '"' :: (escList s.toList ++ ('"' :: rest)) := by
            show strChars s ++ rest = '"' :: (escList s.toList ++ ('"' :: rest))
            simp [strChars]
          rw [harg, pVal_quote, pText_strBody]
  | Json.arr [], ind, fuel, rest, hf, _ => by
      cases fuel with
      | zero => exact absurd hf (by simp)
      | succ f => rfl
  | Json.arr (x :: xs), ind, fuel, rest, hf, _ => by
      cases fuel with
      | zero => exact absurd hf (by omega)
      | succ f =>
          have harg : jRender ind (Json.arr (x :: xs)) ++ rest
              = '[' :: (nlIndent (ind + 2) ++ (jRender (ind + 2) x
                  ++ (jArrTail (ind + 2) xs ++ (nlIndent ind ++ (']' :: rest))))) := by
            simp [jRender]
          rw [harg, pVal_open_bracket]
          have hdrop : dropWs (nlIndent (ind + 2) ++ (jRender (ind + 2) x
              ++ (jArrTail (ind + 2) xs ++ (nlIndent ind ++ (']' :: rest)))))
              = jRender (ind + 2) x
                  ++ (jArrTail (ind + 2) xs ++ (nlIndent ind ++ (']' :: rest))) := by
            rw [dropWs_nlIndent]
            exact dropWs_render _ _ _
          rw [hdrop]
          obtain ⟨c, t, hct, hws, hcb, _, _⟩ := renderHead (ind + 2) x
          rw [if_neg (by rw [hct]; simp [hcb])]
          have hclose : dropWs (nlIndent ind ++ (']' :: rest)) = ']' :: rest := by
            rw [dropWs_nlIndent]
            exact dropWs_cons_not _ _ (by decide)
          have hL := congrArg List.length harg
          simp only [List.length_append, List.length_cons] at hL
          have hitems := rtItems x xs (ind + 2) f [] (nlIndent ind ++ (']' :: rest))
            rest rfl hclose (by omega)
          simp only [List.nil_append] at hitems
          rw [hitems]
  | Json.obj [], ind, fuel, rest, hf, _ => by
      cases fuel with
      | zero => exact absurd hf (by simp)
      | succ f => rfl
  | Json.obj ((k1, v1) :: fs), ind, fuel, rest, hf, _ => by
      cases fuel with
      | zero => exact absurd hf (by omega)
      | succ f =>
          have harg : jRender ind (Json.obj ((k1, v1) :: fs)) ++ rest
              = '{' :: (nlIndent (ind + 2) ++ (strChars k1 ++ ':' :: ' '
                  :: (jRender (ind + 2) v1
                    ++ (jObjTail (ind + 2) fs ++ (nlIndent ind ++ ('}' :: rest)))))) := by
            simp [jRender]
          rw [harg, pVal_open_brace]
          have hdrop : dropWs (nlIndent (ind + 2) ++ (strChars k1 ++ ':' :: ' '
              :: (jRender (ind + 2) v1
                ++ (jObjTail (ind + 2) fs ++ (nlIndent ind ++ ('}' :: rest))))))
              = strChars k1 ++ ':' :: ' '
                  :: (jRender (ind + 2) v1
                    ++ (jObjTail (ind + 2) fs ++ (nlIndent ind ++ ('}' :: rest)))) := by
            rw [dropWs_nlIndent]
            show dropWs ('"' :: _) = _
            exact dropWs_cons_not _ _ (by decide)
          rw [hdrop]
          rw [if_neg (by simp [strChars])]
          have hclose : dropWs (nlIndent ind ++ ('}' :: rest)) = '}' :: rest := by
            rw [dropWs_nlIndent]
            exact dropWs_cons_not _ _ (by decide)
          have hL := congrArg List.length harg
          simp only [List.length_append, List.length_cons] at hL
          have hfields := rtFields k1 v1 fs (ind + 2) f []
            (nlIndent ind ++ ('}' :: rest)) rest rfl hclose (by omega)
          simp only [List.nil_append] at hfields
          rw [hfields]
termination_by v ind fuel rest hf hr => fuel

/-- Parsing inverts the rendered items of a nonempty array. -/
theorem rtItems : ∀ (x : Json) (xs : List Json) (ind fuel : Nat)
      (w tail rest : List Char),
    wsOnly w = true → dropWs tail = ']' :: rest →
    (jRender ind x).length + (jArrTail ind xs).length + 1 < fuel →
    pItems fuel (w ++ (jRender ind x ++ (jArrTail ind xs ++ tail)))
      = some (x :: xs, rest)
  | x, xs, ind, fuel, w, tail, rest, hw, htail, hfuel => by
      cases fuel with
      | zero => omega
      | succ f =>
          rw [pItems_step, pVal_ws f w _ hw]
          cases xs with
          | nil =>
              have hnum : numStop (jArrTail ind ([] : List Json) ++ tail) = true := by
                show numStop tail = true
                exact numStop_of_dropWs tail ']' rest htail (by decide) (by decide)
              have hpv := rtVal x ind f (jArrTail ind ([] : List Json) ++ tail)
                (by omega) hnum
              rw [hpv]
              show (match dropWs tail with
                    | ',' :: r1 =>
                        (match pItems f r1 with
                         | some (vs, r2) => some (x :: vs, r2)
                         | none => none)
                    | ']' :: r1 => some ([x], r1)
                    | _ => none) = some ([x], rest)
              rw [htail]
              rfl
          | cons y ys =>
              have hjt : jArrTail ind (y :: ys) ++ tail
                  = ',' :: (nlIndent ind
                      ++ (jRender ind y ++ (jArrTail ind ys ++ tail))) := by
                simp [jArrTail]
              have hnum : numStop (jArrTail ind (y :: ys) ++ tail) = true := by
                rw [hjt]
                exact numStop_cons _ _ (by decide) (by decide)
              have hpv := rtVal x ind f (jArrTail ind (y :: ys) ++ tail)
                (by omega) hnum
              rw [hpv]
              have hA := congrArg List.length hjt
              simp only [List.length_append, List.length_cons] at hA
              have hrec := rtItems y ys ind f (nlIndent ind) tail rest
                (wsOnly_nlIndent ind) htail (by omega)
              show (match dropWs (jArrTail ind (y :: ys) ++ tail) with
                    | ',' :: r1 =>
                        (match pItems f r1 with
                         | some (vs, r2) => some (x :: vs, r2)
                         | none => none)
                    | ']' :: r1 => some ([x], r1)
                    | _ => none) = some (x :: y :: ys, rest)
              rw [hjt, dropWs_cons_not ',' _ (by decide)]
              show (match pItems f (nlIndent ind
                      ++ (jRender ind y ++ (jArrTail ind ys ++ tail))) with
                    | some (vs, r2) => some (x :: vs, r2)
                    | none => none) = some (x :: y :: ys, rest)
              rw [hrec]
termination_by x xs ind fuel w tail rest hw htail hfuel => fuel

/-- Parsing inverts the rendered members of a nonempty object. -/
theorem rtFields : ∀ (k : String) (v : Json) (fs : List (String × Json))
      (ind fuel : Nat) (w tail rest : List Char),
    wsOnly w = true → dropWs tail = '}' :: rest →
    (strChars k).length + (jRender ind v).length + (jObjTail ind fs).length + 2 < fuel →
    pFields fuel (w ++ (strChars k ++ ':' :: ' '
        :: (jRender ind v ++ (jObjTail ind fs ++ tail))))
      = some ((k, v) :: fs, rest)
  | k, v, fs, ind, fuel, w, tail, rest, hw, htail, hfuel => by
      cases fuel with
      | zero => omega
      | succ f =>
          have harg : w ++ (strChars k ++ ':' :: ' '
              :: (jRender ind v ++ (jObjTail ind fs ++ tail)))
              = w ++ ('"' :: (escList k.toList
                  ++ ('"' :: (':' :: ' '
                    :: (jRender ind v ++ (jObjTail ind fs ++ tail)))))) := by
            simp [strChars]
          rw [harg]
          have hqd : dropWs (w ++ ('"' :: (escList k.toList
              ++ ('"' :: (':' :: ' '
                :: (jRender ind v ++ (jObjTail ind fs ++ tail)))))))
              = '"' :: (escList k.toList
                  ++ ('"' :: (':' :: ' '
                    :: (jRender ind v ++ (jObjTail ind fs ++ tail))))) := by
            rw [dropWs_ws_append w _ hw]
            exact dropWs_cons_not _ _ (by decide)
          have hstep : pFields (f + 1) (w ++ ('"' :: (escList k.toList
              ++ ('"' :: (':' :: ' '
                :: (jRender ind v ++ (jObjTail ind fs ++ tail))))))) =
              pFields (f + 1) ('"' :: (escList k.toList
                  ++ ('"' :: (':' :: ' '
                    :: (jRender ind v ++ (jObjTail ind fs ++ tail)))))) := by
            simp only [pFields]
            rw [hqd, dropWs_cons_not _ _ (by decide)]
          rw [hstep, pFields_quote, pText_strBody]
          show (match dropWs (':' :: ' '
                  :: (jRender ind v ++ (jObjTail ind fs ++ tail))) with
                | ':' :: r2 =>
                    (match pVal f r2 with
                     | none => none
                     | some (v2, r3) =>
                         match dropWs r3 with
                         | ',' :: r4 =>
                             (match pFields f r4 with
                              | some (fsr, r5) => some ((k, v2) :: fsr, r5)
                              | none => none)
                         | '}' :: r4 => some ([(k, v2)], r4)
                         | _ => none)
                | _ => none) = some ((k, v) :: fs, rest)
          rw [show dropWs (':' :: ' '
              :: (jRender ind v ++ (jObjTail ind fs ++ tail)))
              = ':' :: ' ' :: (jRender ind v ++ (jObjTail ind fs ++ tail)) from
            dropWs_cons_not _ _ (by decide)]
          show (match pVal f (' ' :: (jRender ind v ++ (jObjTail ind fs ++ tail))) with
                | none => none
                | some (v2, r3) =>
                    match dropWs r3 with
                    | ',' :: r4 =>
                        (match pFields f r4 with
                         | some (fsr, r5) => some ((k, v2) :: fsr, r5)
                         | none => none)
                    | '}' :: r4 => some ([(k, v2)], r4)
                    | _ => none) = some ((k, v) :: fs, rest)
          have hsp : pVal f (' ' :: (jRender ind v ++ (jObjTail ind fs ++ tail)))
              = pVal f (jRender ind v ++ (jObjTail ind fs ++ tail)) :=
            pVal_ws f [' '] _ (by decide)
          cases fs with
          | nil =>
              have hnum : numStop (jObjTail ind ([] : List (String × Json)) ++ tail)
                  = true := by
                show numStop tail = true
                exact numStop_of_dropWs tail '}' rest htail (by decide) (by decide)
              have hpv := rtVal v ind f (jObjTail ind ([] : List (String × Json)) ++ tail)
                (by omega) hnum
              rw [hsp, hpv]
              show (match dropWs (jObjTail ind ([] : List (String × Json)) ++ tail) with
                    | ',' :: r4 =>
                        (match pFields f r4 with
                         | some (fs2, r5) => some ((k, v) :: fs2, r5)
                         | none => none)
                    | '}' :: r4 => some ([(k, v)], r4)
                    | _ => none) = some ([(k, v)], rest)
              rw [show jObjTail ind ([] : List (String × Json)) ++ tail = tail from by
                simp [jObjTail]]
              rw [htail]
              rfl
          | cons kv2 fs2 =>
              obtain ⟨k2, v2⟩ := kv2
              have hjt : jObjTail ind ((k2, v2) :: fs2) ++ tail
                  = ',' :: (nlIndent ind
                      ++ (strChars k2 ++ ':' :: ' '
                        :: (jRender ind v2 ++ (jObjTail ind fs2 ++ tail)))) := by
                simp [jObjTail]
              have hnum : numStop (jObjTail ind ((k2, v2) :: fs2) ++ tail) = true := by
                rw [hjt]
                exact numStop_cons _ _ (by decide) (by decide)
              have hpv := rtVal v ind f (jObjTail ind ((k2, v2) :: fs2) ++ tail)
                (by omega) hnum
              rw [hsp, hpv]
              have hA := congrArg List.length hjt
              simp only [List.length_append, List.length_cons] at hA
              have hrec := rtFields k2 v2 fs2 ind f (nlIndent ind) tail rest
                (wsOnly_nlIndent ind) htail (by omega)
              show (match dropWs (jObjTail ind ((k2, v2) :: fs2) ++ tail) with
                    | ',' :: r4 =>
                        (match pFields f r4 with
                         | some (fsr, r5) => some ((k, v) :: fsr, r5)
                         | none => none)
                    | '}' :: r4 => some ([(k, v)], r4)
                    | _ => none) = some ((k, v) :: (k2, v2) :: fs2, rest)
              rw [hjt, dropWs_cons_not ',' _ (by decide)]
              show (match pFields f (nlIndent ind
                      ++ (strChars k2 ++ ':' :: ' '
                        :: (jRender ind v2 ++ (jObjTail ind fs2 ++ tail)))) with
                    | some (fsr, r5) => some ((k, v) :: fsr, r5)
                    | none => none) = some ((k, v) :: (k2, v2) :: fs2, rest)
              rw [hrec]
termination_by k v fs ind fuel w tail rest hw htail hfuel => fuel

end

/-- C8: exporting an analysis result as JSON — serializing the results
    envelope exactly as JSON.stringify(results, null, 2) lays it out —
    and re-parsing the exported text yields precisely the JSON structure
    of the original result, for every result envelope the app produces:
    the round-trip is the identity. -/
theorem C8_export_round_trip (r : AnalysisResults) :
    parseJson (exportJsonText r) = some (encodeResults r) := by
  have hrt := rtVal (encodeResults r) 0 ((jRender 0 (encodeResults r)).length + 1) []
    (by omega) rfl
  rw [List.append_nil] at hrt
  show (match pVal ((exportJsonText r).toList.length + 1) (exportJsonText r).toList with
        | some (v, rest) => if dropWs rest = [] then some v else none
        | none => none) = some (encodeResults r)
  rw [show (exportJsonText r).toList = jRender 0 (encodeResults r) from rfl, hrt]
  rfl

/-! ## C1, C2, C3, C5: the generate-video-from-slides handler -/

/-- C1 (amended): once validation has passed, a non-2xx script response
    is converted into a thrown error carrying the upstream status text,
    as is a non-2xx audio response; and every response of the handler is
    either a 200 or a 500 whose JSON body is an object holding only the
    error message (the catch block serializes just the error field, with
    no success flag). -/
theorem C1_error_envelope (env : HandlerEnv) :
    (∀ sd k sr, env.slideData = some sd → env.apiKey = some k →
       scriptOutcome env = Except.ok sr → sr.ok = false →
       (runHandler env).2 = errorResponse ("Script generation failed: " ++ sr.statusText))
    ∧ (∀ sd k sr ar, env.slideData = some sd → env.apiKey = some k →
       scriptOutcome env = Except.ok sr → sr.ok = true →
       audioOutcome env (ttsInput sr.payload) = Except.ok ar → ar.ok = false →
       (runHandler env).2 = errorResponse ("Audio generation failed: " ++ ar.statusText))
    ∧ ((runHandler env).2.status = 200 ∨ ∃ m, (runHandler env).2 = errorResponse m) := by
  refine ⟨?_, ?_, ?_⟩
  · intro sd k sr hsd hak hso hok
    simp [runHandler, handlerTry, hsd, hak, hso, hok]
  · intro sd k sr ar hsd hak hso hok hao haok
    simp [runHandler, handlerTry, hsd, hak, hso, hok, hao, haok]
  · cases hsd : env.slideData with
    | none => exact Or.inr ⟨"Slide data is required", by simp [runHandler, handlerTry, hsd]⟩
    | some sd =>
        cases hak : env.apiKey with
        | none =>
            exact Or.inr ⟨"OpenAI API key not configured",
              by simp [runHandler, handlerTry, hsd, hak]⟩
        | some k =>
            cases hso : scriptOutcome env with
            | error m => exact Or.inr ⟨m, by simp [runHandler, handlerTry, hsd, hak, hso]⟩
            | ok sr =>
                cases hok : sr.ok with
                | false =>
                    exact Or.inr ⟨"Script generation failed: " ++ sr.statusText,
                      by simp [runHandler, handlerTry, hsd, hak, hso, hok]⟩
                | true =>
                    cases hao : audioOutcome env (ttsInput sr.payload) with
                    | error m =>
                        exact Or.inr ⟨m,
                          by simp [runHandler, handlerTry, hsd, hak, hso, hok, hao]⟩
                    | ok ar =>
                        cases haok : ar.ok with
                        | false =>
                            exact Or.inr ⟨"Audio generation failed: " ++ ar.statusText,
                              by simp [runHandler, handlerTry, hsd, hak, hso, hok, hao, haok]⟩
                        | true =>
                            exact Or.inl
                              (by simp [runHandler, handlerTry, hsd, hak, hso, hok, hao, haok])

/-- Witness for C1: the 429 script response yields a 500 whose body holds
    the thrown message with the upstream status text. -/
theorem C1_error_envelope_witness :
    (runHandler envScriptRejected).2
      = errorResponse "Script generation failed: Too Many Requests" :=
  (C1_error_envelope envScriptRejected).1 "c2xpZGVz" "sk-test"
    { ok := false, status := 429, statusText := "Too Many Requests", payload := "" }
    rfl rfl rfl rfl

/-- Counterexample for C1 as stated: at a concrete request whose script
    call answers 429, the handler does return HTTP 500, but the JSON body
    is an object with a single error field — it carries no success field
    at all, so the body is not of the claimed form with success set to
    false. -/
theorem C1_counterexample :
    (runHandler envScriptRejected).2.status = 500
    ∧ (runHandler envScriptRejected).2.body
        = Json.obj [("error", Json.str "Script generation failed: Too Many Requests")]
    ∧ jGet (runHandler envScriptRejected).2.body "success" = none
    ∧ ¬ ∃ m, (runHandler envScriptRejected).2.body
        = Json.obj [("success", Json.bool false), ("error", Json.str m)] := by
  refine ⟨rfl, rfl, rfl, ?_⟩
  rintro ⟨m, hm⟩
  have h1 : (runHandler envScriptRejected).2.body
      = Json.obj [("error", Json.str "Script generation failed: Too Many Requests")] := rfl
  rw [h1] at hm
  have h2 := congrArg List.length (Json.obj.inj hm)
  simp at h2

/-- C2 (amended): both upstream calls are raced against fixed timeouts of
    30 and 45 seconds (both within the 20-45 second range); a fetch that
    has not settled when its timeout fires loses the race and the handler
    fails with the fixed timeout message, which differs from every
    non-timeout failure message the handler throws; but the race does not
    abort the outbound request, whose init carries no abort signal. -/
theorem C2_timeout_race (env : HandlerEnv) :
    (scriptTimeoutMs = 30000 ∧ audioTimeoutMs = 45000
      ∧ 20000 ≤ scriptTimeoutMs ∧ scriptTimeoutMs ≤ 45000
      ∧ 20000 ≤ audioTimeoutMs ∧ audioTimeoutMs ≤ 45000)
    ∧ (∀ t, env.scriptFetchMs = some t → scriptTimeoutMs ≤ t →
        scriptOutcome env = Except.error scriptTimeoutMsg)
    ∧ (env.scriptFetchMs = none → scriptOutcome env = Except.error scriptTimeoutMsg)
    ∧ (∀ inp t, env.audioFetchMs = some t → audioTimeoutMs ≤ t →
        audioOutcome env inp = Except.error audioTimeoutMsg)
    ∧ (∀ inp, env.audioFetchMs = none → audioOutcome env inp = Except.error audioTimeoutMsg)
    ∧ (∀ st, scriptTimeoutMsg ≠ "Script generation failed: " ++ st)
    ∧ (∀ st, audioTimeoutMsg ≠ "Audio generation failed: " ++ st)
    ∧ scriptTimeoutMsg ≠ audioTimeoutMsg
    ∧ scriptTimeoutMsg ≠ "Slide data is required"
    ∧ scriptTimeoutMsg ≠ "OpenAI API key not configured"
    ∧ audioTimeoutMsg ≠ "Slide data is required"
    ∧ audioTimeoutMsg ≠ "OpenAI API key not configured"
    ∧ scriptFetchInit.signal = none ∧ audioFetchInit.signal = none := by
  refine ⟨⟨rfl, rfl, by decide, by decide, by decide, by decide⟩, ?_, ?_, ?_, ?_,
    ?_, ?_, by decide, by decide, by decide, by decide, by decide, rfl, rfl⟩
  · intro t ht hto
    simp [scriptOutcome, raceFetch, ht, Nat.not_lt.mpr hto]
  · intro ht
    simp [scriptOutcome, raceFetch, ht]
  · intro inp t ht hto
    simp [audioOutcome, raceFetch, ht, Nat.not_lt.mpr hto]
  · intro inp ht
    simp [audioOutcome, raceFetch, ht]
  · intro st h
    have hl := congrArg String.length h
    rw [String.length_append] at hl
    have h1 : scriptTimeoutMsg.length = 25 := rfl
    have h2 : ("Script generation failed: ").length = 26 := rfl
    rw [h1, h2] at hl
    omega
  · intro st h
    have hl := congrArg String.length h
    rw [String.length_append] at hl
    have h1 : audioTimeoutMsg.length = 24 := rfl
    have h2 : ("Audio generation failed: ").length = 25 := rfl
    rw [h1, h2] at hl
    omega

/-- Witness for C2: at the successful concrete environment, a script fetch
    pinned at 30000ms elapsed loses the race. -/
theorem C2_timeout_race_witness :
    scriptOutcome
        { envScriptRejected with scriptFetchMs := some 30000 }
      = Except.error scriptTimeoutMsg :=
  (C2_timeout_race { envScriptRejected with scriptFetchMs := some 30000 }).2.1
    30000 rfl (by decide)

set_option maxRecDepth 8192 in
/-- Counterexample for C2 as stated: the claim says the timeout aborts the
    outbound request when it fires, but the request inits actually issued
    by a concrete successful run carry no abort signal, so firing the
    timeout cannot abort either outbound call. -/
theorem C2_counterexample :
    Event.scriptCall scriptFetchInit ∈ (runHandler envAllOk).1
    ∧ Event.audioCall audioFetchInit (ttsInput "Welcome to the presentation.") "alloy"
        ∈ (runHandler envAllOk).1
    ∧ scriptFetchInit.signal = none
    ∧ audioFetchInit.signal = none := by
  refine ⟨?_, ?_, rfl, rfl⟩ <;> decide

/-- C3 (amended): when validation passes and both upstream calls answer
    2xx, the handler returns HTTP 200 with the success envelope: success
    true, the extracted script (equal to the upstream chat content, hence
    nonempty exactly when that content is), a nonempty audio data URL, a
    video URL, a duration string, and the echoed settings. -/
theorem C3_success_envelope (env : HandlerEnv) (sd k : String)
    (sr ar : UpstreamResponse)
    (hsd : env.slideData = some sd) (hak : env.apiKey = some k)
    (hso : scriptOutcome env = Except.ok sr) (hok : sr.ok = true)
    (hao : audioOutcome env (ttsInput sr.payload) = Except.ok ar) (haok : ar.ok = true) :
    (runHandler env).2.status = 200
    ∧ (runHandler env).2.body = successBody env sr.payload ar.payload
    ∧ jGet (runHandler env).2.body "success" = some (Json.bool true)
    ∧ jGet (runHandler env).2.body "script" = some (Json.str sr.payload)
    ∧ (∃ u, jGet (runHandler env).2.body "audioUrl" = some (Json.str u) ∧ u ≠ "")
    ∧ (∃ vu, jGet (runHandler env).2.body "videoUrl" = some (Json.str vu))
    ∧ (∃ d, jGet (runHandler env).2.body "duration" = some (Json.str d))
    ∧ jGet (runHandler env).2.body "settings" = some (settingsJson env.settings) := by
  have hrun : (runHandler env).2 =
      { status := 200, body := successBody env sr.payload ar.payload } := by
    simp [runHandler, handlerTry, hsd, hak, hso, hok, hao, haok]
  rw [hrun]
  refine ⟨rfl, rfl, rfl, rfl, ⟨_, rfl, ?_⟩, ⟨_, rfl⟩, ⟨_, rfl⟩, rfl⟩
  intro hc
  have hl := congrArg String.length hc
  rw [String.length_append] at hl
  have h1 : ("data:audio/mp3;base64,").length = 22 := by decide
  rw [h1] at hl
  have h2 : ("").length = 0 := by decide
  rw [h2] at hl
  omega

/-- Witness for C3: the fully successful concrete run returns the 200
    envelope. -/
theorem C3_success_envelope_witness :
    (runHandler envAllOk).2.status = 200
    ∧ jGet (runHandler envAllOk).2.body "script"
        = some (Json.str "Welcome to the presentation.") :=
  ⟨(C3_success_envelope envAllOk "c2xpZGVz" "sk-test"
      { ok := true, status := 200, statusText := "OK"
        payload := "Welcome to the presentation." }
      { ok := true, status := 200, statusText := "OK", payload := "QUJD" }
      rfl rfl rfl rfl rfl rfl).1,
   (C3_success_envelope envAllOk "c2xpZGVz" "sk-test"
      { ok := true, status := 200, statusText := "OK"
        payload := "Welcome to the presentation." }
      { ok := true, status := 200, statusText := "OK", payload := "QUJD" }
      rfl rfl rfl rfl rfl rfl).2.2.2.1⟩

/-- Counterexample for C3 as stated: a run where both upstream calls
    answer 2xx but the chat content is empty still returns 200 with
    success true — and an empty script field, refuting the claim that a
    successful response always carries a nonempty script. -/
theorem C3_counterexample :
    (runHandler envEmptyScript).2.status = 200
    ∧ jGet (runHandler envEmptyScript).2.body "success" = some (Json.bool true)
    ∧ jGet (runHandler envEmptyScript).2.body "script" = some (Json.str "") :=
  ⟨rfl, rfl, rfl⟩

/-- C5: within one request, the speech-synthesis call is only ever issued
    after the chat-completion response has resolved, passed its ok check
    and had its script text extracted: whenever the trace contains an
    audio call, the trace begins with the script call and the script
    extraction before it, and the audio input is the first 4000
    characters of exactly that extracted script. -/
theorem C5_script_awaited_before_audio (env : HandlerEnv) (init : FetchInit)
    (inp v : String) (h : Event.audioCall init inp v ∈ (runHandler env).1) :
    ∃ s t, (runHandler env).1
        = Event.scriptCall scriptFetchInit :: Event.scriptExtracted s
            :: Event.audioCall audioFetchInit (ttsInput s) v :: t
      ∧ init = audioFetchInit ∧ inp = ttsInput s ∧ v = env.settings.voice
      ∧ ∃ sr, scriptOutcome env = Except.ok sr ∧ sr.ok = true ∧ s = sr.payload := by
  cases hsd : env.slideData with
  | none => simp [runHandler, handlerTry, hsd] at h
  | some sd =>
  cases hak : env.apiKey with
  | none => simp [runHandler, handlerTry, hsd, hak] at h
  | some k =>
  cases hso : scriptOutcome env with
  | error m => simp [runHandler, handlerTry, hsd, hak, hso] at h
  | ok sr =>
  cases hok : sr.ok with
  | false => simp [runHandler, handlerTry, hsd, hak, hso, hok] at h
  | true =>
  cases hao : audioOutcome env (ttsInput sr.payload) with
  | error m =>
      have htr : (runHandler env).1
          = [Event.scriptCall scriptFetchInit, Event.scriptExtracted sr.payload,
             Event.audioCall audioFetchInit (ttsInput sr.payload) env.settings.voice] := by
        simp [runHandler, handlerTry, hsd, hak, hso, hok, hao]
      rw [htr] at h
      simp only [List.mem_cons, List.not_mem_nil, or_false] at h
      rcases h with h | h | h
      · exact absurd h (by simp)
      · exact absurd h (by simp)
      · obtain ⟨hinit, hinp, hv⟩ := Event.audioCall.inj h
        exact ⟨sr.payload, [], by rw [hv]; exact htr, hinit, hinp, hv, sr, rfl, hok, rfl⟩
  | ok ar =>
  cases haok : ar.ok with
  | false =>
      have htr : (runHandler env).1
          = [Event.scriptCall scriptFetchInit, Event.scriptExtracted sr.payload,
             Event.audioCall audioFetchInit (ttsInput sr.payload) env.settings.voice] := by
        simp [runHandler, handlerTry, hsd, hak, hso, hok, hao, haok]
      rw [htr] at h
      simp only [List.mem_cons, List.not_mem_nil, or_false] at h
      rcases h with h | h | h
      · exact absurd h (by simp)
      · exact absurd h (by simp)
      · obtain ⟨hinit, hinp, hv⟩ := Event.audioCall.inj h
        exact ⟨sr.payload, [], by rw [hv]; exact htr, hinit, hinp, hv, sr, rfl, hok, rfl⟩
  | true =>
      have htr : (runHandler env).1
          = [Event.scriptCall scriptFetchInit, Event.scriptExtracted sr.payload,
             Event.audioCall audioFetchInit (ttsInput sr.payload) env.settings.voice,
             Event.audioDone] := by
        simp [runHandler, handlerTry, hsd, hak, hso, hok, hao, haok]
      rw [htr] at h
      simp only [List.mem_cons, List.not_mem_nil, or_false] at h
      rcases h with h | h | h | h
      · exact absurd h (by simp)
      · exact absurd h (by simp)
      · obtain ⟨hinit, hinp, hv⟩ := Event.audioCall.inj h
        exact ⟨sr.payload, [Event.audioDone], by rw [hv]; exact htr, hinit, hinp, hv,
          sr, rfl, hok, rfl⟩
      · exact absurd h (by simp)

set_option maxRecDepth 8192 in
/-- Witness for C5: the audio call of the successful concrete run is
    preceded by the script call and extraction. -/
theorem C5_script_awaited_before_audio_witness :
    ∃ s t, (runHandler envAllOk).1
        = Event.scriptCall scriptFetchInit :: Event.scriptExtracted s
            :: Event.audioCall audioFetchInit (ttsInput s) "alloy" :: t
      ∧ audioFetchInit = audioFetchInit
      ∧ ttsInput "Welcome to the presentation." = ttsInput s
      ∧ "alloy" = envAllOk.settings.voice
      ∧ ∃ sr, scriptOutcome envAllOk = Except.ok sr ∧ sr.ok = true ∧ s = sr.payload :=
  C5_script_awaited_before_audio envAllOk audioFetchInit
    (ttsInput "Welcome to the presentation.") "alloy" (by decide)

/-! ## C10: the per-slide fan-out handler degrades instead of rejecting -/

/-- C10: in the alternate per-slide fan-out handler, an individual
    slide's upstream failure never rejects the request: a failed or
    non-2xx script call makes generateSlideScript fall back to the
    slide's original content, a failed or non-2xx voice call makes
    generateVoiceNarration return the empty string, so the Promise.all
    fan-outs always resolve and a validated request always produces a 200
    response with one script and one audio track per slide. -/
theorem C10_fanout_degrades (env : FanoutEnv) :
    (∀ slide msg, generateSlideScript slide (Except.error msg) = slide.content)
    ∧ (∀ slide r, r.ok = false → generateSlideScript slide (Except.ok r) = slide.content)
    ∧ (∀ sc msg, generateVoiceNarration sc (Except.error msg) = "")
    ∧ (∀ sc r, r.ok = false → generateVoiceNarration sc (Except.ok r) = "")
    ∧ (env.slides ≠ [] → env.apiKey ≠ none →
        ∃ slideScripts audioTracks visuals,
          runSlidesFanout env = FanResult.success 200 slideScripts audioTracks visuals
          ∧ slideScripts.length = env.slides.length
          ∧ audioTracks.length = env.slides.length) := by
  refine ⟨fun slide msg => rfl, fun slide r hr => by simp [generateSlideScript, hr],
    fun sc msg => rfl, fun sc r hr => by simp [generateVoiceNarration, hr],
    fun hne hkey => ?_⟩
  have hemp : env.slides.isEmpty = false := by
    cases h : env.slides with
    | nil => exact absurd h hne
    | cons a l => rfl
  cases hak : env.apiKey with
  | none => exact absurd hak hkey
  | some k =>
      refine ⟨env.slides.mapIdx (fun i sl => generateSlideScript sl (env.scriptOutcome i)),
        (env.slides.mapIdx (fun i sl => generateSlideScript sl (env.scriptOutcome i))).mapIdx
          (fun i sc => generateVoiceNarration sc (env.voiceOutcome i)),
        env.slides.mapIdx
          (fun i _ => generateVisualEnhancements env.settings (env.visualOutcome i)),
        ?_, ?_, ?_⟩
      · simp [runSlidesFanout, hemp, hak]
      · simp
      · simp

/-- Witness for C10: a two-slide request where every upstream call fails
    still returns a 200 with both scripts and audio tracks present. -/
theorem C10_fanout_degrades_witness :
    fanoutEnvDegraded.slides ≠ [] ∧ fanoutEnvDegraded.apiKey ≠ none
    ∧ ∃ slideScripts audioTracks visuals,
        runSlidesFanout fanoutEnvDegraded
          = FanResult.success 200 slideScripts audioTracks visuals
        ∧ slideScripts.length = fanoutEnvDegraded.slides.length
        ∧ audioTracks.length = fanoutEnvDegraded.slides.length :=
  ⟨by decide, by decide,
   (C10_fanout_degrades fanoutEnvDegraded).2.2.2.2 (by decide) (by decide)⟩

end MediaSense
